import Mathlib

/-!
Shallow embedding of the spectrogram layer of the svgui repository
(src/layer/SpectrogramLayer.cpp), together with theorems settling the
frozen claims about it.  Machine floats of the source are embedded as
exact rationals (for the decidable parameter / cache logic) or reals
(for the square-root based zoom computations); external collaborators
(the audio model, the FFT model, the view geometry) are embedded as
records of the data the layer reads from them.
-/

/-- Enumeration BinScale from the source (Linear / Log frequency axis). -/
inductive BinScale where
  | linear
  | log
deriving DecidableEq, Repr

/-- Enumeration BinDisplay from the source. -/
inductive BinDisplay where
  | allBins
  | peakBins
  | peakFrequencies
deriving DecidableEq, Repr

/-- Enumeration ColumnNormalization from the source (Sum1 exists in the
enum but is unused by this layer). -/
inductive ColumnNormalization where
  | nonorm
  | sum1
  | max1
  | hybrid
deriving DecidableEq, Repr

/-- Enumeration ColourScaleType from the source. -/
inductive ColourScaleType where
  | linear
  | meter
  | log
  | phase
  | plusMinusOne
  | absolute
deriving DecidableEq, Repr

/-- Window function type; the layer only stores and compares it, so the
concrete shape is irrelevant and it is embedded as an integer code. -/
abbrev WindowType := Int

/-- The Preferences::SpectrogramSmoothing global preference read by
getFFTOversampling. -/
inductive SpectrogramSmoothing where
  | noSmoothing
  | interpolated
  | zeroPadded
  | zeroPaddedAndInterpolated
deriving DecidableEq, Repr

/-- The audio source model (DenseTimeValueModel collaborator): the fields
the spectrogram layer reads from it. -/
structure AudioModel where
  sampleRate : ℚ
  isOK : Bool
  isReady : Bool
  startFrame : ℤ
  endFrame : ℤ
deriving DecidableEq

/-- The FFT model collaborator.  `id` records the creation order so a
rebuild by getFFTModel is observable; the query functions are opaque
data supplied at construction time. -/
structure FFTModel where
  id : ℕ
  channel : ℤ
  windowType : WindowType
  windowSize : ℕ
  windowIncrement : ℕ
  fftSize : ℕ
  isOK : Bool
  completion : ℤ
  error : String
  width : ℤ
  isLocalPeak : ℤ → ℤ → Bool
  isOverThreshold : ℤ → ℤ → ℚ → Bool
  estimateStableFrequency : ℤ → ℤ → ℚ → ℚ

/-- FFTModel::getHeight of the collaborator: fftSize / 2 + 1 bins. -/
def FFTModel.getHeight (f : FFTModel) : ℕ := f.fftSize / 2 + 1

/-- Ambient data the layer reads from outside itself: the smoothing
preference, and the behaviour a freshly constructed FFT model would
have (whether its allocation succeeds, and its query functions, which
depend on audio data the embedding does not otherwise carry). -/
structure Env where
  smoothing : SpectrogramSmoothing
  allocOK : Bool
  fftCompletion : ℤ
  fftError : String
  fftWidth : ℤ
  fftIsLocalPeak : ℤ → ℤ → Bool
  fftIsOverThreshold : ℤ → ℤ → ℚ → Bool
  fftEstimate : ℤ → ℤ → ℚ → ℚ

/-- The state of a SpectrogramLayer.  Per-view renderers and magnitude
ranges are kept only as the list of view ids holding an entry, since no
claim observes their contents, only whether the maps are empty.
`fftSeq` is the id the next constructed FFT model receives. -/
structure SpectrogramLayer where
  model : Option AudioModel
  channel : ℤ
  windowSize : ℕ
  windowType : WindowType
  windowHopLevel : ℕ
  gain : ℚ
  threshold : ℚ
  colourRotation : ℤ
  minFrequency : ℤ
  maxFrequency : ℤ
  initialMaxFrequency : ℤ
  colourScale : ColourScaleType
  colourMap : ℤ
  binScale : BinScale
  binDisplay : BinDisplay
  normalization : ColumnNormalization
  normalizeVisibleArea : Bool
  lastEmittedZoomStep : ℤ
  fftModel : Option FFTModel
  peakCache : Option ℕ
  renderers : List ℕ
  viewMags : List ℕ
  fftSeq : ℕ

/-- SpectrogramLayer::getFFTOversampling (source lines 678-694). -/
def getFFTOversampling (env : Env) (l : SpectrogramLayer) : ℕ :=
  if l.binDisplay ≠ BinDisplay.allBins then 1
  else if env.smoothing = SpectrogramSmoothing.noSmoothing ∨
          env.smoothing = SpectrogramSmoothing.interpolated then 1
  else 4

/-- SpectrogramLayer::getFFTSize (source lines 696-700). -/
def getFFTSize (env : Env) (l : SpectrogramLayer) : ℕ :=
  l.windowSize * getFFTOversampling env l

/-- Modelled from the spec: SpectrogramLayer::getWindowIncrement is
declared in the header, which is not part of the sources; the spec
states the invariant hopSize = windowSize >> windowHopLevel. -/
def getWindowIncrement (l : SpectrogramLayer) : ℕ :=
  l.windowSize >>> l.windowHopLevel

/-- SpectrogramLayer::invalidateRenderers: deletes every per-view
renderer and clears the map (source lines 621-633). -/
def invalidateRenderers (l : SpectrogramLayer) : SpectrogramLayer :=
  { l with renderers := [] }

/-- SpectrogramLayer::invalidateMagnitudes: clears m_viewMags
(source lines 1381-1388). -/
def invalidateMagnitudes (l : SpectrogramLayer) : SpectrogramLayer :=
  { l with viewMags := [] }

/-- SpectrogramLayer::invalidateFFTModel: deletes the FFT model and the
peak cache (source lines 1365-1379). -/
def invalidateFFTModel (l : SpectrogramLayer) : SpectrogramLayer :=
  { l with fftModel := none, peakCache := none }

/-- SpectrogramLayer::setChannel (source lines 660-670). -/
def setChannel (ch : ℤ) (l : SpectrogramLayer) : SpectrogramLayer :=
  if l.channel = ch then l
  else invalidateFFTModel { invalidateRenderers l with channel := ch }

/-- SpectrogramLayer::setWindowSize (source lines 702-714). -/
def setWindowSize (ws : ℕ) (l : SpectrogramLayer) : SpectrogramLayer :=
  if l.windowSize = ws then l
  else invalidateFFTModel { invalidateRenderers l with windowSize := ws }

/-- SpectrogramLayer::setWindowHopLevel (source lines 722-736). -/
def setWindowHopLevel (v : ℕ) (l : SpectrogramLayer) : SpectrogramLayer :=
  if l.windowHopLevel = v then l
  else invalidateFFTModel { invalidateRenderers l with windowHopLevel := v }

/-- SpectrogramLayer::setWindowType (source lines 744-756). -/
def setWindowType (w : WindowType) (l : SpectrogramLayer) : SpectrogramLayer :=
  if l.windowType = w then l
  else invalidateFFTModel { invalidateRenderers l with windowType := w }

/-- SpectrogramLayer::setGain (source lines 764-777). -/
def setGain (g : ℚ) (l : SpectrogramLayer) : SpectrogramLayer :=
  if l.gain = g then l
  else { invalidateRenderers l with gain := g }

/-- SpectrogramLayer::setThreshold (source lines 785-795). -/
def setThreshold (t : ℚ) (l : SpectrogramLayer) : SpectrogramLayer :=
  if l.threshold = t then l
  else { invalidateRenderers l with threshold := t }

/-- SpectrogramLayer::setMinFrequency (source lines 803-816). -/
def setMinFrequency (mf : ℤ) (l : SpectrogramLayer) : SpectrogramLayer :=
  if l.minFrequency = mf then l
  else { invalidateMagnitudes (invalidateRenderers l) with minFrequency := mf }

/-- SpectrogramLayer::setMaxFrequency (source lines 824-837). -/
def setMaxFrequency (mf : ℤ) (l : SpectrogramLayer) : SpectrogramLayer :=
  if l.maxFrequency = mf then l
  else { invalidateMagnitudes (invalidateRenderers l) with maxFrequency := mf }

/-- SpectrogramLayer::setColourRotation (source lines 845-860): clamps
to [0,256], assigns when changed, always invalidates renderers. -/
def setColourRotation (r : ℤ) (l : SpectrogramLayer) : SpectrogramLayer :=
  let r := if r < 0 then 0 else if r > 256 then 256 else r
  let l := if r - l.colourRotation ≠ 0 then { l with colourRotation := r } else l
  invalidateRenderers l

/-- SpectrogramLayer::setColourScale (source lines 862-872). -/
def setColourScale (cs : ColourScaleType) (l : SpectrogramLayer) : SpectrogramLayer :=
  if l.colourScale = cs then l
  else { invalidateRenderers l with colourScale := cs }

/-- SpectrogramLayer::setColourMap (source lines 880-890). -/
def setColourMap (m : ℤ) (l : SpectrogramLayer) : SpectrogramLayer :=
  if l.colourMap = m then l
  else { invalidateRenderers l with colourMap := m }

/-- SpectrogramLayer::setBinScale (source lines 898-907). -/
def setBinScale (bs : BinScale) (l : SpectrogramLayer) : SpectrogramLayer :=
  if l.binScale = bs then l
  else { invalidateRenderers l with binScale := bs }

/-- SpectrogramLayer::setBinDisplay (source lines 915-924). -/
def setBinDisplay (bd : BinDisplay) (l : SpectrogramLayer) : SpectrogramLayer :=
  if l.binDisplay = bd then l
  else { invalidateRenderers l with binDisplay := bd }

/-- SpectrogramLayer::setNormalization (source lines 932-942). -/
def setNormalization (n : ColumnNormalization) (l : SpectrogramLayer) : SpectrogramLayer :=
  if l.normalization = n then l
  else { invalidateMagnitudes (invalidateRenderers l) with normalization := n }

/-- SpectrogramLayer::setNormalizeVisibleArea (source lines 950-960). -/
def setNormalizeVisibleArea (n : Bool) (l : SpectrogramLayer) : SpectrogramLayer :=
  if l.normalizeVisibleArea = n then l
  else { invalidateMagnitudes (invalidateRenderers l) with normalizeVisibleArea := n }

/-- Construction of a fresh FFTModel inside getFFTModel (source lines
1324-1329): the layer passes its current parameters; the data-dependent
behaviour comes from the environment. -/
def mkFFTModel (env : Env) (l : SpectrogramLayer) (fftSize : ℕ) : FFTModel :=
  { id := l.fftSeq
    channel := l.channel
    windowType := l.windowType
    windowSize := l.windowSize
    windowIncrement := getWindowIncrement l
    fftSize := fftSize
    isOK := env.allocOK
    completion := env.fftCompletion
    error := env.fftError
    width := env.fftWidth
    isLocalPeak := env.fftIsLocalPeak
    isOverThreshold := env.fftIsOverThreshold
    estimateStableFrequency := env.fftEstimate }

/-- SpectrogramLayer::getFFTModel (source lines 1303-1344): returns the
stored model when its height and window increment still match the
current parameters, otherwise deletes it (and the peak cache) and
constructs a new one; a failed construction leaves no model. -/
def getFFTModel (env : Env) (l : SpectrogramLayer) :
    SpectrogramLayer × Option FFTModel :=
  match l.model with
  | none => (l, none)
  | some _ =>
    let fftSize := getFFTSize env l
    let fits : Bool :=
      match l.fftModel with
      | some f => f.getHeight = fftSize / 2 + 1 ∧ f.windowIncrement = getWindowIncrement l
      | none => false
    match l.fftModel, fits with
    | some f, true => (l, some f)
    | _, _ =>
      let f := mkFFTModel env l fftSize
      if f.isOK then
        ({ l with fftModel := some f, peakCache := none, fftSeq := l.fftSeq + 1 },
         some f)
      else
        ({ l with fftModel := none, peakCache := none, fftSeq := l.fftSeq + 1 },
         none)

/-- SpectrogramLayer::getCompletion (source lines 1577-1586): with no
FFT model the layer reports 100. The view argument is unused, as in the
source. -/
def getCompletion (l : SpectrogramLayer) : ℤ :=
  match l.fftModel with
  | none => 100
  | some f => f.completion

/-- SpectrogramLayer::getError (source lines 1588-1593): with no FFT
model the layer reports the empty string. -/
def getError (l : SpectrogramLayer) : String :=
  match l.fftModel with
  | none => ""
  | some f => f.error

/-- C++ conversion of a floating value to int: truncation toward zero. -/
def cppInt (q : ℚ) : ℤ :=
  if 0 ≤ q then ⌊q⌋ else ⌈q⌉

/-- Sample rate the layer reads through m_model->getSampleRate(); the
source dereferences the model, so this is only meaningful when a model
is present (theorems hypothesise it). -/
def modelSampleRate (l : SpectrogramLayer) : ℚ :=
  match l.model with
  | some am => am.sampleRate
  | none => 0

/-- SpectrogramLayer::getEffectiveMinFrequency (source lines 1037-1050). -/
def getEffectiveMinFrequency (env : Env) (l : SpectrogramLayer) : ℚ :=
  let sr := modelSampleRate l
  let fftSize : ℚ := (getFFTSize env l : ℚ)
  let minf := sr / fftSize
  if 0 < l.minFrequency then
    let minbin := cppInt ((l.minFrequency * fftSize) / sr + 1/100)
    let minbin := if minbin < 1 then 1 else minbin
    minbin * sr / fftSize
  else minf

/-- SpectrogramLayer::getEffectiveMaxFrequency (source lines 1052-1065). -/
def getEffectiveMaxFrequency (env : Env) (l : SpectrogramLayer) : ℚ :=
  let sr := modelSampleRate l
  let fftSize : ℚ := (getFFTSize env l : ℚ)
  let maxf := sr / 2
  if 0 < l.maxFrequency then
    let maxbin := cppInt ((l.maxFrequency * fftSize) / sr + 1/10)
    let maxbin := if maxbin > (getFFTSize env l : ℕ) / 2 then ((getFFTSize env l : ℕ) / 2 : ℤ) else maxbin
    maxbin * sr / fftSize
  else maxf

/-- The bin-to-frequency conversion used by getYForBin (source line
1086): freq = bin * sampleRate / fftSize. -/
def binFrequency (sr : ℚ) (fftSize : ℕ) (bin : ℚ) : ℚ :=
  bin * sr / (fftSize : ℚ)

/-- SpectrogramLayer::convertToColourScale (source lines 138-149). -/
def convertToColourScale (value : ℤ) : ColourScaleType :=
  if value = 0 then ColourScaleType.linear
  else if value = 1 then ColourScaleType.meter
  else if value = 2 then ColourScaleType.log
  else if value = 3 then ColourScaleType.log
  else if value = 4 then ColourScaleType.phase
  else ColourScaleType.linear

/-- The cast (BinScale)int applied to the persisted frequencyScale
attribute (source line 2449); the attribute is written as 0=Linear,
1=Log. -/
def toBinScale (v : ℤ) : BinScale :=
  if v = 1 then BinScale.log else BinScale.linear

/-- The cast (BinDisplay)int applied to the persisted binDisplay
attribute (source line 2453); written as 0=AllBins, 1=PeakBins,
2=PeakFrequencies. -/
def toBinDisplay (v : ℤ) : BinDisplay :=
  if v = 1 then BinDisplay.peakBins
  else if v = 2 then BinDisplay.peakFrequencies
  else BinDisplay.allBins

/-- The flat attribute set read by setProperties.  Numeric attributes
are `some` exactly when present and parseable (QString::toInt sets its
ok flag); string-compared attributes carry the attribute string already
stripped of surrounding whitespace (the source compares the trimmed
value), with "" for an absent key, as QXmlAttributes::value does. -/
structure LayerAttributes where
  channel : Option ℤ
  windowSize : Option ℕ
  windowHopLevel : Option ℕ
  windowOverlap : Option ℕ
  gain : Option ℚ
  threshold : Option ℚ
  minFrequency : Option ℕ
  maxFrequency : Option ℕ
  colourScale : Option ℤ
  colourScheme : Option ℤ
  colourRotation : Option ℤ
  frequencyScale : Option ℤ
  binDisplay : Option ℤ
  columnNormalization : String
  normalizeColumns : String
  normalizeHybrid : String
  normalizeVisibleArea : String

/-- Applies a setter to an optionally present attribute value, as the
`if (ok) set...` pattern of setProperties does. -/
def applyOpt (f : α → SpectrogramLayer → SpectrogramLayer)
    (o : Option α) (l : SpectrogramLayer) : SpectrogramLayer :=
  match o with
  | some v => f v l
  | none => l

/-- The windowHopLevel / legacy windowOverlap block of setProperties
(source lines 2407-2419). -/
def applyHopAttributes (a : LayerAttributes) (l : SpectrogramLayer) : SpectrogramLayer :=
  match a.windowHopLevel with
  | some v => setWindowHopLevel v l
  | none =>
    match a.windowOverlap with
    | some 0 => setWindowHopLevel 0 l
    | some 25 => setWindowHopLevel 1 l
    | some 50 => setWindowHopLevel 2 l
    | some 75 => setWindowHopLevel 3 l
    | some 90 => setWindowHopLevel 4 l
    | _ => l

/-- The normalization block of setProperties (source lines 2457-2490):
returns the updated layer and whether a new-style columnNormalization
attribute was seen. -/
def applyNormalizationAttributes (a : LayerAttributes) (l : SpectrogramLayer) :
    SpectrogramLayer × Bool :=
  if a.columnNormalization ≠ "" then
    let l :=
      if a.columnNormalization = "peak" then setNormalization ColumnNormalization.max1 l
      else if a.columnNormalization = "hybrid" then setNormalization ColumnNormalization.hybrid l
      else if a.columnNormalization = "none" then setNormalization ColumnNormalization.nonorm l
      else l
    (l, true)
  else
    let l := if a.normalizeColumns = "true"
             then setNormalization ColumnNormalization.max1 l else l
    let l := if a.normalizeHybrid = "true"
             then setNormalization ColumnNormalization.hybrid l else l
    (l, false)

/-- SpectrogramLayer::setProperties (source lines 2396-2504): restores
the persisted attributes through the ordinary setters, then applies the
legacy hybrid gain correction when no new-style normalization key was
present and the resulting mode is Hybrid. -/
def setProperties (env : Env) (a : LayerAttributes) (l : SpectrogramLayer) :
    SpectrogramLayer :=
  let l := applyOpt setChannel a.channel l
  let l := applyOpt setWindowSize a.windowSize l
  let l := applyHopAttributes a l
  let l := applyOpt setGain a.gain l
  let l := applyOpt setThreshold a.threshold l
  let l := applyOpt (fun (v : ℕ) => setMinFrequency (v : ℤ)) a.minFrequency l
  let l := applyOpt (fun (v : ℕ) => setMaxFrequency (v : ℤ)) a.maxFrequency l
  let l := applyOpt (fun v => setColourScale (convertToColourScale v)) a.colourScale l
  let l := applyOpt setColourMap a.colourScheme l
  let l := applyOpt setColourRotation a.colourRotation l
  let l := applyOpt (fun v => setBinScale (toBinScale v)) a.frequencyScale l
  let l := applyOpt (fun v => setBinDisplay (toBinDisplay v)) a.binDisplay l
  let p := applyNormalizationAttributes a l
  let l := p.1
  let haveNewStyleNormalization := p.2
  let l := setNormalizeVisibleArea (a.normalizeVisibleArea = "true") l
  if ¬haveNewStyleNormalization ∧ l.normalization = ColumnNormalization.hybrid then
    setGain (l.gain / ((getFFTSize env l / 2 : ℕ) : ℚ)) l
  else l

/-- The per-step zoom factor of SpectrogramRangeMapper: m_s2 =
sqrt(sqrt(2)) (source line 2147). -/
noncomputable def s2 : ℝ := Real.sqrt (Real.sqrt 2)

/-- The 0.00001 slack added to the requested value in
SpectrogramRangeMapper::getPositionForValue (source line 2156). -/
noncomputable def epsStop : ℝ := 1 / 100000

/-- The running dist of the mapper loops: starts at sr/2 and is divided
by s2 once per iteration (source lines 2152-2158 and 2176-2182). -/
noncomputable def distAt (sr : ℝ) : ℕ → ℝ
  | 0 => sr / 2
  | n + 1 => distAt sr n / s2

/-- Exit condition of the while loop in getPositionForValue: the loop
runs while dist > value + 0.00001 and dist > 0.1, so it stops at the
first n where that conjunction fails. -/
def stopCond (sr value : ℝ) (n : ℕ) : Prop :=
  ¬(distAt sr n > value + epsStop ∧ distAt sr n > 1 / 10)

/-- Closed form of the running dist. -/
theorem distAt_eq (sr : ℝ) (n : ℕ) : distAt sr n = (sr / 2) / s2 ^ n := by
  induction n with
  | zero => simp [distAt]
  | succ k ih => rw [distAt, ih, pow_succ, div_div]

/-- s2 is positive. -/
theorem s2_pos : 0 < s2 := by
  have h2 : (0:ℝ) < Real.sqrt 2 := Real.sqrt_pos.mpr (by norm_num)
  exact Real.sqrt_pos.mpr h2

/-- The fourth power of s2 is 2: the mapper is geometric with factor
2^(1/4) per step. -/
theorem s2_pow_four : s2 ^ 4 = 2 := by
  have h0 : (0:ℝ) ≤ 2 := by norm_num
  have h1 : (0:ℝ) ≤ Real.sqrt 2 := Real.sqrt_nonneg 2
  have : s2 ^ 4 = (s2 ^ 2) ^ 2 := by ring
  rw [this, s2, Real.sq_sqrt h1, Real.sq_sqrt h0]

/-- Rational bounds on s2 used in the loop analysis. -/
theorem s2_gt : (1.18 : ℝ) < s2 := by
  have h : (1.18 : ℝ) ^ 4 < s2 ^ 4 := by rw [s2_pow_four]; norm_num
  exact lt_of_pow_lt_pow_left₀ 4 (le_of_lt s2_pos) h

/-- Upper rational bound on s2. -/
theorem s2_lt : s2 < (1.2 : ℝ) := by
  have h : s2 ^ 4 < (1.2 : ℝ) ^ 4 := by rw [s2_pow_four]; norm_num
  exact lt_of_pow_lt_pow_left₀ 4 (by norm_num) h

/-- One is less than s2. -/
theorem one_lt_s2 : (1 : ℝ) < s2 := lt_trans (by norm_num) s2_gt

/-- The while loop of getPositionForValue terminates: some index
satisfies the exit condition. -/
theorem stop_exists (sr value : ℝ) : ∃ n, stopCond sr value n := by
  rcases le_or_lt sr 0 with hsr | hsr
  · refine ⟨0, ?_⟩
    intro h
    have : distAt sr 0 ≤ 0 := by simp [distAt]; linarith
    linarith [h.2]
  · obtain ⟨n, hn⟩ := pow_unbounded_of_one_lt (5 * sr) one_lt_s2
    refine ⟨n, ?_⟩
    intro h
    have hpow : (0:ℝ) < s2 ^ n := pow_pos s2_pos n
    have hd : distAt sr n = (sr / 2) / s2 ^ n := distAt_eq sr n
    have : distAt sr n < 1 / 10 := by
      rw [hd, div_lt_iff₀ hpow]
      nlinarith
    linarith [h.2]

/-- SpectrogramRangeMapper::getPositionForValue (source lines
2150-2162): the number of divisions by s2 needed to bring sr/2 down to
the requested value, with the 0.00001 slack and the 0.1 floor. -/
noncomputable def getPositionForValue (sr value : ℝ) : ℕ :=
  @Nat.find (stopCond sr value) (Classical.decPred _) (stop_exists sr value)

/-- Characterisation of getPositionForValue as the first loop exit. -/
theorem getPositionForValue_eq_iff (sr value : ℝ) (n : ℕ) :
    getPositionForValue sr value = n ↔
      stopCond sr value n ∧ ∀ m, m < n → ¬stopCond sr value m := by
  letI : DecidablePred (stopCond sr value) := Classical.decPred _
  unfold getPositionForValue
  exact Nat.find_eq_iff _

/-- SpectrogramRangeMapper::getValueForPosition (source lines
2169-2185): divides sr/2 by s2 once per step. -/
noncomputable def getValueForPosition (sr : ℝ) (position : ℕ) : ℝ :=
  distAt sr position

/-- SpectrogramLayer::getVerticalZoomSteps (source lines 2199-2220):
returns (number of steps, default step).  The mapper ignores the fft
size argument of its constructor. -/
noncomputable def getVerticalZoomSteps (l : SpectrogramLayer) : ℤ × ℤ :=
  match l.model with
  | none => (0, 0)
  | some am =>
    let sr : ℝ := (am.sampleRate : ℝ)
    let maxStep := getPositionForValue sr 0
    let minStep := getPositionForValue sr ((sr : ℝ) / 2)
    let initialMax : ℝ :=
      if l.initialMaxFrequency = 0 then sr / 2 else (l.initialMaxFrequency : ℝ)
    ((maxStep : ℤ) - (minStep : ℤ),
     (getPositionForValue sr initialMax : ℤ) - (minStep : ℤ))

/-- The newmin/newmax computation of setVerticalZoomStep before
clamping (source lines 2250-2284): under Log the positive root of the
quadratic, under Linear the arithmetic-midpoint-preserving interval. -/
noncomputable def setVerticalZoomStepRange (bs : BinScale) (newdist dmin dmax : ℝ) :
    ℝ × ℝ :=
  match bs with
  | BinScale.log =>
    let newmax := (newdist + Real.sqrt (newdist * newdist + 4 * dmin * dmax)) / 2
    (newmax - newdist, newmax)
  | BinScale.linear =>
    let dmid := (dmax + dmin) / 2
    (dmid - newdist / 2, dmid + newdist / 2)

/-- SpectrogramLayer::setVerticalZoomStep (source lines 2236-2302):
computes the new extent for the requested step, clamps it to
[0, sr/2], and stores it through the frequency setters.  lrint is
embedded as round (they differ only on exact .5 ties). -/
noncomputable def setVerticalZoomStep (step : ℕ) (l : SpectrogramLayer) :
    SpectrogramLayer :=
  match l.model with
  | none => l
  | some am =>
    let dmin : ℝ := (l.minFrequency : ℝ)
    let dmax : ℝ := (l.maxFrequency : ℝ)
    let sr : ℝ := (am.sampleRate : ℝ)
    let newdist := getValueForPosition sr step
    let p := setVerticalZoomStepRange l.binScale newdist dmin dmax
    let mmin : ℝ := 0
    let mmax : ℝ := sr / 2
    let newmax := if p.1 < mmin then p.2 + (mmin - p.1) else p.2
    let newmin := if p.1 < mmin then mmin else p.1
    let newmax := if newmax > mmax then mmax else newmax
    setMaxFrequency (round newmax) (setMinFrequency (round newmin) l)

/-- The view collaborator (LayerGeometryProvider): the geometry data and
coordinate maps the layer calls into, as opaque functions. -/
structure ViewGeom where
  paintHeight : ℤ
  frameForX : ℤ → ℤ
  frequencyForY : ℚ → ℚ → ℚ → Bool → ℚ
  yForFrequency : ℚ → ℚ → ℚ → Bool → ℚ

/-- SpectrogramLayer::getBinForY (source lines 1093-1108). -/
def getBinForY (env : Env) (l : SpectrogramLayer) (v : ViewGeom) (y : ℚ) : ℚ :=
  let sr := modelSampleRate l
  let minf := getEffectiveMinFrequency env l
  let maxf := getEffectiveMaxFrequency env l
  let logarithmic := l.binScale = BinScale.log
  let freq := v.frequencyForY y minf maxf logarithmic
  freq * (getFFTSize env l : ℚ) / sr

/-- SpectrogramLayer::getYForBin (source lines 1078-1091). -/
def getYForBin (env : Env) (l : SpectrogramLayer) (v : ViewGeom) (bin : ℚ) : ℚ :=
  let sr := modelSampleRate l
  let minf := getEffectiveMinFrequency env l
  let maxf := getEffectiveMaxFrequency env l
  let logarithmic := l.binScale = BinScale.log
  let freq := (bin * sr) / (getFFTSize env l : ℚ)
  v.yForFrequency freq minf maxf logarithmic

/-- SpectrogramLayer::getYBinRange (source lines 1067-1076). -/
def getYBinRange (env : Env) (l : SpectrogramLayer) (v : ViewGeom) (y : ℤ) :
    Option (ℚ × ℚ) :=
  if y < 0 ∨ v.paintHeight ≤ y then none
  else some (getBinForY env l v (y : ℚ), getBinForY env l v ((y : ℚ) - 1))

/-- SpectrogramLayer::getXBinRange (source lines 1110-1132).  The
comparison of the already-offset f1 against modelStart is as in the
source. -/
def getXBinRange (l : SpectrogramLayer) (v : ViewGeom) (x : ℤ) :
    Option (ℚ × ℚ) :=
  match l.model with
  | none => none
  | some am =>
    let modelStart := am.startFrame
    let modelEnd := am.endFrame
    let f0 := v.frameForX x - modelStart
    let f1 := v.frameForX (x + 1) - modelStart - 1
    if f1 < modelStart ∨ f0 > modelEnd then none
    else some ((f0 : ℚ) / (getWindowIncrement l : ℚ),
               (f1 : ℚ) / (getWindowIncrement l : ℚ))

/-- The list of integers a, a+1, ..., b (empty when b < a), the index
set of a C++ for loop from a to b inclusive. -/
def intRange (a b : ℤ) : List ℤ :=
  (List.range (b + 1 - a).toNat).map (fun i => a + (i : ℤ))

/-- One accumulation step of getAdjustedYBinSourceRange (source lines
1225-1228): the first passing bin initialises both bounds, later ones
update them by comparison. -/
def adjStep (st : Bool × ℚ × ℚ) (v : ℚ) : Bool × ℚ × ℚ :=
  let mn := if st.1 = false ∨ v < st.2.1 then v else st.2.1
  let mx := if st.1 = false ∨ v > st.2.2 then v else st.2.2
  (true, mn, mx)

/-- The filter a bin must pass in getAdjustedYBinSourceRange (source
lines 1212-1221): the local-peak test in peaks-only display, the
absolute threshold test, and the availability of a next time column. -/
def adjCond (env : Env) (l : SpectrogramLayer) (fft : FFTModel) (q s : ℤ) : Prop :=
  ((l.binDisplay = BinDisplay.peakBins ∨ l.binDisplay = BinDisplay.peakFrequencies) →
    fft.isLocalPeak s q = true) ∧
  fft.isOverThreshold s q (l.threshold * (getFFTSize env l : ℚ) / 2) = true ∧
  s < fft.width - 1

/-- The adjusted frequency a passing bin contributes:
estimateStableFrequency seeded with the nominal bin frequency
sr*q/windowSize (source lines 1208, 1219-1223). -/
def adjVal (l : SpectrogramLayer) (fft : FFTModel) (q s : ℤ) : ℚ :=
  fft.estimateStableFrequency s q (modelSampleRate l * q / (l.windowSize : ℚ))

instance (env : Env) (l : SpectrogramLayer) (fft : FFTModel) (q s : ℤ) :
    Decidable (adjCond env l fft q s) := by
  unfold adjCond
  infer_instance

/-- The double loop of getAdjustedYBinSourceRange (source lines
1204-1231) over the bin block [q0i,q1i] x [s0i,s1i]. -/
def adjLoop (env : Env) (l : SpectrogramLayer) (fft : FFTModel)
    (s0i s1i q0i q1i : ℤ) : Bool × ℚ × ℚ :=
  (intRange q0i q1i).foldl (fun st q =>
    (intRange s0i s1i).foldl (fun st s =>
      if adjCond env l fft q s then adjStep st (adjVal l fft q s) else st) st)
    (false, 0, 0)

/-- SpectrogramLayer::getAdjustedYBinSourceRange (source lines
1172-1238), returning (return value, adjFreqMin, adjFreqMax).  The
plain freqMin/freqMax out-parameters are not modelled (no claim reads
them); the early-return paths leave the adjusted pair at the callers'
zero initialisation. -/
def getAdjustedYBinSourceRange (env : Env) (l : SpectrogramLayer) (v : ViewGeom)
    (x y : ℤ) : Bool × ℚ × ℚ :=
  match l.model with
  | none => (false, 0, 0)
  | some am =>
    if ¬(am.isOK = true ∧ am.isReady = true) then (false, 0, 0)
    else
      match (getFFTModel env l).2 with
      | none => (false, 0, 0)
      | some fft =>
        match getXBinRange l v x with
        | none => (false, 0, 0)
        | some (s0, s1) =>
          match getYBinRange env l v y with
          | none => (false, 0, 0)
          | some (q0, q1) =>
            adjLoop env l fft (cppInt (s0 + 1/1000)) (cppInt s1)
              (cppInt (q0 + 1/1000)) (cppInt q1)

/-- The flattened list of adjusted frequencies of exactly the bins of
the block that pass the filters, in loop order: the specification-level
description of the loop the claim compares against. -/
def adjPassList (env : Env) (l : SpectrogramLayer) (fft : FFTModel)
    (s0i s1i q0i q1i : ℤ) : List ℚ :=
  ((intRange q0i q1i).flatMap (fun q => (intRange s0i s1i).map (fun s => (q, s)))).filterMap
    (fun p => if adjCond env l fft p.1 p.2 then some (adjVal l fft p.1 p.2) else none)

/-- Specification-level result: "no value" (false, 0, 0) on an empty
pass list, otherwise true with the minimum and maximum of the list. -/
def adjSpecOf : List ℚ → Bool × ℚ × ℚ
  | [] => (false, 0, 0)
  | a :: r => (true, r.foldl min a, r.foldl max a)

/-- Modelled from the spec: View::getYForFrequency, which lives in the
view sources outside this repository slice.  The spec states the
frequency axis is affine between effectiveMinFrequency and
effectiveMaxFrequency under Linear scale and affine in log(frequency)
under Log scale; h is the paint height, row 0 at the top. -/
noncomputable def viewYForFrequency (h freq minf maxf : ℝ) (logarithmic : Bool) : ℝ :=
  if logarithmic then
    h - h * (Real.log freq - Real.log minf) / (Real.log maxf - Real.log minf)
  else
    h - h * (freq - minf) / (maxf - minf)

/-- Modelled from the spec: View::getFrequencyForY, the inverse pixel
row to frequency map of the same affine (or affine-in-log) axis. -/
noncomputable def viewFrequencyForY (h y minf maxf : ℝ) (logarithmic : Bool) : ℝ :=
  if logarithmic then
    Real.exp (Real.log minf + (Real.log maxf - Real.log minf) * (h - y) / h)
  else
    minf + (maxf - minf) * (h - y) / h

/-- SpectrogramLayer::getYForBin (source lines 1078-1091) with the view
collaborator's map modelled from the spec, over the reals. -/
noncomputable def getYForBinR (env : Env) (l : SpectrogramLayer) (h : ℝ) (bin : ℝ) : ℝ :=
  let sr : ℝ := ((modelSampleRate l : ℚ) : ℝ)
  let minf : ℝ := ((getEffectiveMinFrequency env l : ℚ) : ℝ)
  let maxf : ℝ := ((getEffectiveMaxFrequency env l : ℚ) : ℝ)
  let logarithmic := l.binScale = BinScale.log
  let freq := (bin * sr) / (getFFTSize env l : ℝ)
  viewYForFrequency h freq minf maxf logarithmic

/-- SpectrogramLayer::getBinForY (source lines 1093-1108) with the view
collaborator's map modelled from the spec, over the reals. -/
noncomputable def getBinForYR (env : Env) (l : SpectrogramLayer) (h : ℝ) (y : ℝ) : ℝ :=
  let sr : ℝ := ((modelSampleRate l : ℚ) : ℝ)
  let minf : ℝ := ((getEffectiveMinFrequency env l : ℚ) : ℝ)
  let maxf : ℝ := ((getEffectiveMaxFrequency env l : ℚ) : ℝ)
  let logarithmic := l.binScale = BinScale.log
  let freq := viewFrequencyForY h y minf maxf logarithmic
  freq * (getFFTSize env l : ℝ) / sr

/-- A typical audio model: 16 kHz mono source. -/
def baseAM : AudioModel :=
  { sampleRate := 16000, isOK := true, isReady := true,
    startFrame := 0, endFrame := 100000 }

/-- A typical environment: no smoothing, allocation succeeds. -/
def baseEnv : Env :=
  { smoothing := SpectrogramSmoothing.noSmoothing, allocOK := true,
    fftCompletion := 50, fftError := "", fftWidth := 0,
    fftIsLocalPeak := fun _ _ => true,
    fftIsOverThreshold := fun _ _ _ => true,
    fftEstimate := fun _ _ f => f }

/-- A layer in the constructor's default state (source lines 60-88),
attached to baseAM, with no FFT model yet and one id consumed. -/
def baseLayer : SpectrogramLayer :=
  { model := some baseAM, channel := 0, windowSize := 1024,
    windowType := 0, windowHopLevel := 2, gain := 1,
    threshold := 1 / 100000000, colourRotation := 0, minFrequency := 10,
    maxFrequency := 8000, initialMaxFrequency := 8000,
    colourScale := ColourScaleType.log, colourMap := 0,
    binScale := BinScale.linear, binDisplay := BinDisplay.allBins,
    normalization := ColumnNormalization.nonorm,
    normalizeVisibleArea := false, lastEmittedZoomStep := -1,
    fftModel := none, peakCache := none, renderers := [1], viewMags := [1],
    fftSeq := 1 }

/-- An FFT model matching baseLayer under baseEnv (fftSize 1024,
increment 256). -/
def fftBase : FFTModel :=
  { id := 0, channel := 0, windowType := 0, windowSize := 1024,
    windowIncrement := 256, fftSize := 1024, isOK := true,
    completion := 100, error := "", width := 0,
    isLocalPeak := fun _ _ => true,
    isOverThreshold := fun _ _ _ => true,
    estimateStableFrequency := fun _ _ f => f }

/-- C10: whenever no FFT model exists, getCompletion reports 100 and
getError reports the empty string (for every view, which the source
ignores): the degraded no-transform state presents itself as complete
and error-free. -/
theorem c10_no_model_complete_and_error_free (l : SpectrogramLayer)
    (h : l.fftModel = none) : getCompletion l = 100 ∧ getError l = "" := by
  simp [getCompletion, getError, h]

/-- Witness for C10 at the default layer, which has no FFT model. -/
theorem c10_witness :
    baseLayer.fftModel = none ∧
    getCompletion baseLayer = 100 ∧ getError baseLayer = "" :=
  ⟨rfl, c10_no_model_complete_and_error_free baseLayer rfl⟩

/-- C7 (amended): setWindowSize performs no validation at all: any
value different from the current one, including 0, is stored, the
renderers are cleared and the FFT model is invalidated; only the
current value is a no-op. -/
theorem c7_setWindowSize_unvalidated (l : SpectrogramLayer) (ws : ℕ) :
    (ws ≠ l.windowSize →
      (setWindowSize ws l).windowSize = ws ∧
      (setWindowSize ws l).fftModel = none ∧
      (setWindowSize ws l).renderers = []) ∧
    (ws = l.windowSize → setWindowSize ws l = l) := by
  constructor
  · intro h
    have h' : ¬(l.windowSize = ws) := fun hc => h hc.symm
    simp [setWindowSize, h', invalidateFFTModel, invalidateRenderers]
  · intro h
    simp [setWindowSize, h]

/-- The layer used for the C7 counterexample: default state with a live
FFT model. -/
def layerC7 : SpectrogramLayer := { baseLayer with fftModel := some fftBase }

/-- Counterexample to C7 as stated: calling setWindowSize(0) on a layer
whose window size is 1024 does not leave the prior value in place; it
stores 0 and destroys the FFT model. -/
theorem c7_counterexample :
    (setWindowSize 0 layerC7).windowSize ≠ layerC7.windowSize ∧
    (setWindowSize 0 layerC7).windowSize = 0 ∧
    layerC7.windowSize = 1024 ∧
    (setWindowSize 0 layerC7).fftModel = none := by
  refine ⟨?_, rfl, rfl, rfl⟩
  decide

/-- Witness for the amended C7 theorem at window size 0 on layerC7. -/
theorem c7_witness :
    ((0 : ℕ) ≠ layerC7.windowSize) ∧
    ((setWindowSize 0 layerC7).windowSize = 0 ∧
     (setWindowSize 0 layerC7).fftModel = none ∧
     (setWindowSize 0 layerC7).renderers = []) :=
  ⟨by decide, (c7_setWindowSize_unvalidated layerC7 0).1 (by decide)⟩

/-- When a model is present and the stored FFT model still matches the
current fft size and window increment, getFFTModel returns it and
leaves the layer untouched. -/
theorem getFFTModel_cached (env : Env) (l : SpectrogramLayer)
    (am : AudioModel) (f : FFTModel)
    (hm : l.model = some am) (hf : l.fftModel = some f)
    (hh : f.getHeight = getFFTSize env l / 2 + 1)
    (hw : f.windowIncrement = getWindowIncrement l) :
    getFFTModel env l = (l, some f) := by
  unfold getFFTModel
  rw [hm, hf]
  simp [hh, hw]

/-- A state transformer that leaves the transform-determining state
(model, stored FFT model, window size, hop level, bin display) alone. -/
def KeepsTransformCore (f : SpectrogramLayer → SpectrogramLayer) : Prop :=
  ∀ l, (f l).model = l.model ∧ (f l).fftModel = l.fftModel ∧
       (f l).windowSize = l.windowSize ∧ (f l).windowHopLevel = l.windowHopLevel ∧
       (f l).binDisplay = l.binDisplay

theorem keepsT_setGain (g : ℚ) : KeepsTransformCore (setGain g) := by
  intro l; unfold setGain invalidateRenderers
  split <;> exact ⟨rfl, rfl, rfl, rfl, rfl⟩

theorem keepsT_setThreshold (t : ℚ) : KeepsTransformCore (setThreshold t) := by
  intro l; unfold setThreshold invalidateRenderers
  split <;> exact ⟨rfl, rfl, rfl, rfl, rfl⟩

theorem keepsT_setColourScale (cs : ColourScaleType) :
    KeepsTransformCore (setColourScale cs) := by
  intro l; unfold setColourScale invalidateRenderers
  split <;> exact ⟨rfl, rfl, rfl, rfl, rfl⟩

theorem keepsT_setColourMap (m : ℤ) : KeepsTransformCore (setColourMap m) := by
  intro l; unfold setColourMap invalidateRenderers
  split <;> exact ⟨rfl, rfl, rfl, rfl, rfl⟩

theorem keepsT_setColourRotation (r : ℤ) :
    KeepsTransformCore (setColourRotation r) := by
  intro l; simp only [setColourRotation, invalidateRenderers]
  refine ⟨?_, ?_, ?_, ?_, ?_⟩ <;> (repeat' split) <;> rfl

theorem keepsT_setBinScale (bs : BinScale) : KeepsTransformCore (setBinScale bs) := by
  intro l; unfold setBinScale invalidateRenderers
  split <;> exact ⟨rfl, rfl, rfl, rfl, rfl⟩

theorem keepsT_setNormalization (n : ColumnNormalization) :
    KeepsTransformCore (setNormalization n) := by
  intro l; unfold setNormalization invalidateMagnitudes invalidateRenderers
  split <;> exact ⟨rfl, rfl, rfl, rfl, rfl⟩

theorem keepsT_setNormalizeVisibleArea (b : Bool) :
    KeepsTransformCore (setNormalizeVisibleArea b) := by
  intro l; unfold setNormalizeVisibleArea invalidateMagnitudes invalidateRenderers
  split <;> exact ⟨rfl, rfl, rfl, rfl, rfl⟩

theorem keepsT_setMinFrequency (mf : ℤ) :
    KeepsTransformCore (setMinFrequency mf) := by
  intro l; unfold setMinFrequency invalidateMagnitudes invalidateRenderers
  split <;> exact ⟨rfl, rfl, rfl, rfl, rfl⟩

theorem keepsT_setMaxFrequency (mf : ℤ) :
    KeepsTransformCore (setMaxFrequency mf) := by
  intro l; unfold setMaxFrequency invalidateMagnitudes invalidateRenderers
  split <;> exact ⟨rfl, rfl, rfl, rfl, rfl⟩

/-- setBinDisplay preserves everything transform-determining except the
bin display itself, which it stores. -/
theorem setBinDisplay_core (bd : BinDisplay) (l : SpectrogramLayer) :
    (setBinDisplay bd l).model = l.model ∧
    (setBinDisplay bd l).fftModel = l.fftModel ∧
    (setBinDisplay bd l).windowSize = l.windowSize ∧
    (setBinDisplay bd l).windowHopLevel = l.windowHopLevel := by
  unfold setBinDisplay invalidateRenderers
  split <;> exact ⟨rfl, rfl, rfl, rfl⟩

/-- The oversampling factor depends on the layer only through its bin
display. -/
theorem getFFTOversampling_congr (env : Env) {l l' : SpectrogramLayer}
    (h : l'.binDisplay = l.binDisplay) :
    getFFTOversampling env l' = getFFTOversampling env l := by
  unfold getFFTOversampling; rw [h]

/-- Cached-return lemma transported along a state change that keeps the
transform-determining fields. -/
theorem getFFTModel_cached_same (env : Env) (l l' : SpectrogramLayer)
    (am : AudioModel) (f : FFTModel)
    (hm : l.model = some am) (hf : l.fftModel = some f)
    (hh : f.getHeight = getFFTSize env l / 2 + 1)
    (hw : f.windowIncrement = getWindowIncrement l)
    (e1 : l'.model = l.model) (e2 : l'.fftModel = l.fftModel)
    (e3 : l'.windowSize = l.windowSize)
    (e4 : getFFTOversampling env l' = getFFTOversampling env l)
    (e5 : l'.windowHopLevel = l.windowHopLevel) :
    getFFTModel env l' = (l', some f) := by
  have hfs : getFFTSize env l' = getFFTSize env l := by
    unfold getFFTSize; rw [e3, e4]
  have hwi : getWindowIncrement l' = getWindowIncrement l := by
    unfold getWindowIncrement; rw [e3, e5]
  exact getFFTModel_cached env l' am f (e1.trans hm) (e2.trans hf)
    (by rw [hfs]; exact hh) (by rw [hwi]; exact hw)

/-- The post-state a display-parameter setter must reach per the
(amended) claim C1: renderer map empty, FFT model untouched, and the
next getFFTModel call returning it without rebuilding. -/
def RendererClearedFFTKept (env : Env) (f : FFTModel) (l' : SpectrogramLayer) : Prop :=
  l'.renderers = [] ∧ l'.fftModel = some f ∧ getFFTModel env l' = (l', some f)

/-- Packaging step for C1: a transform-core-keeping setter that cleared
the renderer map reaches the required post-state. -/
theorem rendererClearedFFTKept_of_keeps (env : Env) (l : SpectrogramLayer)
    (am : AudioModel) (f : FFTModel)
    (hm : l.model = some am) (hf : l.fftModel = some f)
    (hh : f.getHeight = getFFTSize env l / 2 + 1)
    (hw : f.windowIncrement = getWindowIncrement l)
    {g : SpectrogramLayer → SpectrogramLayer} (hk : KeepsTransformCore g)
    (hr : (g l).renderers = []) :
    RendererClearedFFTKept env f (g l) := by
  obtain ⟨e1, e2, e3, e4, e5⟩ := hk l
  exact ⟨hr, e2.trans hf,
    getFFTModel_cached_same env l (g l) am f hm hf hh hw e1 e2 e3
      (getFFTOversampling_congr env e5) e4⟩

/-- C1 (amended): every Display Parameter setter called with a value
different from the current one empties the per-view renderer map and
leaves the stored FFT model in place; for all of them except
setBinDisplay a subsequent getFFTModel returns that model without
rebuilding it; setBinDisplay does so exactly when it does not change
the FFT oversampling factor (with zero-padding smoothing active,
switching to or from AllBins changes the FFT size, and the next
getFFTModel call rebuilds the model). -/
theorem c1_display_setters_clear_renderers_keep_fft
    (env : Env) (l : SpectrogramLayer) (am : AudioModel) (f : FFTModel)
    (hm : l.model = some am) (hf : l.fftModel = some f)
    (hh : f.getHeight = getFFTSize env l / 2 + 1)
    (hw : f.windowIncrement = getWindowIncrement l) :
    (∀ g, g ≠ l.gain → RendererClearedFFTKept env f (setGain g l)) ∧
    (∀ t, t ≠ l.threshold → RendererClearedFFTKept env f (setThreshold t l)) ∧
    (∀ cs, cs ≠ l.colourScale → RendererClearedFFTKept env f (setColourScale cs l)) ∧
    (∀ cm, cm ≠ l.colourMap → RendererClearedFFTKept env f (setColourMap cm l)) ∧
    (∀ r, r ≠ l.colourRotation → RendererClearedFFTKept env f (setColourRotation r l)) ∧
    (∀ bs, bs ≠ l.binScale → RendererClearedFFTKept env f (setBinScale bs l)) ∧
    (∀ n, n ≠ l.normalization → RendererClearedFFTKept env f (setNormalization n l)) ∧
    (∀ b, b ≠ l.normalizeVisibleArea →
      RendererClearedFFTKept env f (setNormalizeVisibleArea b l)) ∧
    (∀ mf, mf ≠ l.minFrequency → RendererClearedFFTKept env f (setMinFrequency mf l)) ∧
    (∀ mf, mf ≠ l.maxFrequency → RendererClearedFFTKept env f (setMaxFrequency mf l)) ∧
    (∀ bd, bd ≠ l.binDisplay →
      (setBinDisplay bd l).renderers = [] ∧
      (setBinDisplay bd l).fftModel = some f ∧
      (getFFTOversampling env (setBinDisplay bd l) = getFFTOversampling env l →
        getFFTModel env (setBinDisplay bd l) = (setBinDisplay bd l, some f))) := by
  refine ⟨?_, ?_, ?_, ?_, ?_, ?_, ?_, ?_, ?_, ?_, ?_⟩
  · intro g hg
    refine rendererClearedFFTKept_of_keeps env l am f hm hf hh hw (keepsT_setGain g) ?_
    have h' : ¬(l.gain = g) := fun hc => hg hc.symm
    simp [setGain, h', invalidateRenderers]
  · intro t ht
    refine rendererClearedFFTKept_of_keeps env l am f hm hf hh hw (keepsT_setThreshold t) ?_
    have h' : ¬(l.threshold = t) := fun hc => ht hc.symm
    simp [setThreshold, h', invalidateRenderers]
  · intro cs hcs
    refine rendererClearedFFTKept_of_keeps env l am f hm hf hh hw (keepsT_setColourScale cs) ?_
    have h' : ¬(l.colourScale = cs) := fun hc => hcs hc.symm
    simp [setColourScale, h', invalidateRenderers]
  · intro cm hcm
    refine rendererClearedFFTKept_of_keeps env l am f hm hf hh hw (keepsT_setColourMap cm) ?_
    have h' : ¬(l.colourMap = cm) := fun hc => hcm hc.symm
    simp [setColourMap, h', invalidateRenderers]
  · intro r _
    refine rendererClearedFFTKept_of_keeps env l am f hm hf hh hw (keepsT_setColourRotation r) ?_
    simp only [setColourRotation, invalidateRenderers]
  · intro bs hbs
    refine rendererClearedFFTKept_of_keeps env l am f hm hf hh hw (keepsT_setBinScale bs) ?_
    have h' : ¬(l.binScale = bs) := fun hc => hbs hc.symm
    simp [setBinScale, h', invalidateRenderers]
  · intro n hn
    refine rendererClearedFFTKept_of_keeps env l am f hm hf hh hw (keepsT_setNormalization n) ?_
    have h' : ¬(l.normalization = n) := fun hc => hn hc.symm
    simp [setNormalization, h', invalidateMagnitudes, invalidateRenderers]
  · intro b hb
    refine rendererClearedFFTKept_of_keeps env l am f hm hf hh hw
      (keepsT_setNormalizeVisibleArea b) ?_
    have h' : ¬(l.normalizeVisibleArea = b) := fun hc => hb hc.symm
    simp [setNormalizeVisibleArea, h', invalidateMagnitudes, invalidateRenderers]
  · intro mf hmf
    refine rendererClearedFFTKept_of_keeps env l am f hm hf hh hw (keepsT_setMinFrequency mf) ?_
    have h' : ¬(l.minFrequency = mf) := fun hc => hmf hc.symm
    simp [setMinFrequency, h', invalidateMagnitudes, invalidateRenderers]
  · intro mf hmf
    refine rendererClearedFFTKept_of_keeps env l am f hm hf hh hw (keepsT_setMaxFrequency mf) ?_
    have h' : ¬(l.maxFrequency = mf) := fun hc => hmf hc.symm
    simp [setMaxFrequency, h', invalidateMagnitudes, invalidateRenderers]
  · intro bd hbd
    obtain ⟨e1, e2, e3, e4⟩ := setBinDisplay_core bd l
    have h' : ¬(l.binDisplay = bd) := fun hc => hbd hc.symm
    refine ⟨?_, e2.trans hf, ?_⟩
    · simp [setBinDisplay, h', invalidateRenderers]
    · intro hov
      exact getFFTModel_cached_same env l (setBinDisplay bd l) am f hm hf hh hw
        e1 e2 e3 hov e4

/-- The environment for the C1 counterexample: zero-padding smoothing
is active, so AllBins display implies 4x FFT oversampling. -/
def envC1 : Env := { baseEnv with smoothing := SpectrogramSmoothing.zeroPadded }

/-- An FFT model matching baseLayer under envC1: windowSize 1024 with
4x oversampling, so fftSize 4096 (height 2049), increment 256. -/
def fftC1 : FFTModel := { fftBase with fftSize := 4096 }

/-- The layer for the C1 counterexample: default state (AllBins) with
the matching 4x-oversampled FFT model installed. -/
def layerC1 : SpectrogramLayer := { baseLayer with fftModel := some fftC1 }

/-- Counterexample to C1 as stated: on layerC1 the stored model (id 0)
matches the current parameters, yet after setBinDisplay(PeakBins) the
next getFFTModel call does not return it — it rebuilds, returning a
fresh model with id 1, because the oversampling factor (and hence the
FFT size) changed. -/
theorem c1_counterexample :
    fftC1.getHeight = getFFTSize envC1 layerC1 / 2 + 1 ∧
    fftC1.windowIncrement = getWindowIncrement layerC1 ∧
    fftC1.id = 0 ∧
    (setBinDisplay BinDisplay.peakBins layerC1).renderers = [] ∧
    (getFFTModel envC1 (setBinDisplay BinDisplay.peakBins layerC1)).2.map FFTModel.id
      = some 1 := by
  exact ⟨rfl, rfl, rfl, rfl, rfl⟩

/-- The layer for the C1 witness: default state with a matching
non-oversampled FFT model installed (baseEnv has no smoothing). -/
def layerC1w : SpectrogramLayer := { baseLayer with fftModel := some fftBase }

/-- Witness for the amended C1 theorem: the gain setter at gain 2 on
layerC1w clears the renderer map and keeps the FFT model. -/
theorem c1_witness :
    ((2 : ℚ) ≠ layerC1w.gain) ∧
    RendererClearedFFTKept baseEnv fftBase (setGain 2 layerC1w) :=
  ⟨by decide,
   (c1_display_setters_clear_renderers_keep_fft baseEnv layerC1w baseAM fftBase
     rfl rfl rfl rfl).1 2 (by decide)⟩

/-- cppInt agrees with the floor on non-negative arguments. -/
theorem cppInt_of_nonneg (q : ℚ) (h : 0 ≤ q) : cppInt q = ⌊q⌋ := if_pos h

/-- C3: getEffectiveMinFrequency and getEffectiveMaxFrequency land on
FFT bin boundaries: each returns bin * sampleRate / fftSize for an
integer bin, with bin 0 excluded from the minimum whenever minFrequency
is nonzero, and the maximum bin clamped to fftSize/2; and in the
claim's example configuration (sampleRate 16000, fftSize 1024) the
bin-to-frequency map sends bin 0 to 0 Hz and bin 512 to 8000 Hz and is
linear in the bin index. -/
theorem c3_effective_freq_on_bin_boundaries
    (env : Env) (l : SpectrogramLayer) (am : AudioModel)
    (hm : l.model = some am) (hsr : 0 < am.sampleRate)
    (hfft : 0 < getFFTSize env l) (heven : 2 ∣ getFFTSize env l) :
    (∃ bin : ℕ, getEffectiveMinFrequency env l
        = (bin : ℚ) * am.sampleRate / (getFFTSize env l : ℚ) ∧
      (l.minFrequency ≠ 0 → 1 ≤ bin)) ∧
    (∃ bin : ℕ, bin ≤ getFFTSize env l / 2 ∧
      getEffectiveMaxFrequency env l
        = (bin : ℚ) * am.sampleRate / (getFFTSize env l : ℚ)) ∧
    (binFrequency 16000 1024 0 = 0 ∧ binFrequency 16000 1024 512 = 8000 ∧
      ∀ b : ℚ, binFrequency 16000 1024 b = b * (125 / 8)) := by
  have hms : modelSampleRate l = am.sampleRate := by simp [modelSampleRate, hm]
  refine ⟨?_, ?_, ?_, ?_, ?_⟩
  · simp only [getEffectiveMinFrequency, hms]
    by_cases h : (0 : ℤ) < l.minFrequency
    · rw [if_pos h]
      by_cases h1 : cppInt ((l.minFrequency : ℚ) * (getFFTSize env l : ℚ)
          / am.sampleRate + 1 / 100) < 1
      · refine ⟨1, ?_, fun _ => le_refl 1⟩
        rw [if_pos h1]; push_cast; ring
      · push_neg at h1
        refine ⟨(cppInt ((l.minFrequency : ℚ) * (getFFTSize env l : ℚ)
            / am.sampleRate + 1 / 100)).toNat, ?_, fun _ => by omega⟩
        rw [if_neg (not_lt.mpr h1)]
        have hc : (((cppInt ((l.minFrequency : ℚ) * (getFFTSize env l : ℚ)
            / am.sampleRate + 1 / 100)).toNat : ℕ) : ℚ)
            = ((cppInt ((l.minFrequency : ℚ) * (getFFTSize env l : ℚ)
            / am.sampleRate + 1 / 100) : ℤ) : ℚ) := by
          exact_mod_cast Int.toNat_of_nonneg (le_trans (by norm_num) h1)
        rw [hc]
    · refine ⟨1, ?_, fun _ => le_refl 1⟩
      rw [if_neg h]; push_cast; ring
  · simp only [getEffectiveMaxFrequency, hms]
    have hdiv : ((getFFTSize env l : ℤ)) / 2 = ((getFFTSize env l / 2 : ℕ) : ℤ) := by
      omega
    by_cases h : (0 : ℤ) < l.maxFrequency
    · rw [if_pos h]
      by_cases h1 : cppInt ((l.maxFrequency : ℚ) * (getFFTSize env l : ℚ)
          / am.sampleRate + 1 / 10) > ((getFFTSize env l : ℤ)) / 2
      · refine ⟨getFFTSize env l / 2, le_refl _, ?_⟩
        rw [if_pos h1]
        norm_cast
      · push_neg at h1
        have hA : (0 : ℚ) ≤ (l.maxFrequency : ℚ) * (getFFTSize env l : ℚ)
            / am.sampleRate + 1 / 10 := by
          have h0 : (0 : ℚ) < (l.maxFrequency : ℚ) := by exact_mod_cast h
          have hf0 : (0 : ℚ) < (getFFTSize env l : ℚ) := by exact_mod_cast hfft
          positivity
        have hnn : 0 ≤ cppInt ((l.maxFrequency : ℚ) * (getFFTSize env l : ℚ)
            / am.sampleRate + 1 / 10) := by
          rw [cppInt_of_nonneg _ hA]
          exact Int.floor_nonneg.mpr hA
        refine ⟨(cppInt ((l.maxFrequency : ℚ) * (getFFTSize env l : ℚ)
            / am.sampleRate + 1 / 10)).toNat, by omega, ?_⟩
        rw [if_neg (not_lt.mpr h1)]
        have hc : (((cppInt ((l.maxFrequency : ℚ) * (getFFTSize env l : ℚ)
            / am.sampleRate + 1 / 10)).toNat : ℕ) : ℚ)
            = ((cppInt ((l.maxFrequency : ℚ) * (getFFTSize env l : ℚ)
            / am.sampleRate + 1 / 10) : ℤ) : ℚ) := by
          exact_mod_cast Int.toNat_of_nonneg hnn
        rw [hc]
    · obtain ⟨k, hk⟩ := heven
      have hk0 : 0 < k := by omega
      refine ⟨getFFTSize env l / 2, le_refl _, ?_⟩
      rw [if_neg h, hk]
      have h2 : (2 * k) / 2 = k := by omega
      rw [h2]
      have hkq : ((k : ℕ) : ℚ) ≠ 0 := by exact_mod_cast hk0.ne.symm
      push_cast
      field_simp
      ring
  · norm_num [binFrequency]
  · norm_num [binFrequency]
  · intro b
    simp only [binFrequency]
    norm_num
    ring

/-- The layer of the C3 example: minFrequency explicitly 0,
maxFrequency 8000, fftSize 1024 at 16 kHz. -/
def layerC3 : SpectrogramLayer := { baseLayer with minFrequency := 0 }

/-- Witness for C3 at the example configuration. -/
theorem c3_witness :
    layerC3.model = some baseAM ∧ (0 : ℚ) < baseAM.sampleRate ∧
    0 < getFFTSize baseEnv layerC3 ∧ 2 ∣ getFFTSize baseEnv layerC3 ∧
    ((∃ bin : ℕ, getEffectiveMinFrequency baseEnv layerC3
        = (bin : ℚ) * baseAM.sampleRate / (getFFTSize baseEnv layerC3 : ℚ) ∧
      (layerC3.minFrequency ≠ 0 → 1 ≤ bin)) ∧
    (∃ bin : ℕ, bin ≤ getFFTSize baseEnv layerC3 / 2 ∧
      getEffectiveMaxFrequency baseEnv layerC3
        = (bin : ℚ) * baseAM.sampleRate / (getFFTSize baseEnv layerC3 : ℚ)) ∧
    (binFrequency 16000 1024 0 = 0 ∧ binFrequency 16000 1024 512 = 8000 ∧
      ∀ b : ℚ, binFrequency 16000 1024 b = b * (125 / 8))) :=
  ⟨rfl, by decide, by decide, by decide,
   c3_effective_freq_on_bin_boundaries baseEnv layerC3 baseAM rfl
     (by decide) (by decide) (by decide)⟩

/-- Gain is untouched by setChannel. -/
@[simp] theorem setChannel_gain (c : ℤ) (l : SpectrogramLayer) :
    (setChannel c l).gain = l.gain := by
  unfold setChannel invalidateFFTModel invalidateRenderers; split <;> rfl

/-- Normalization is untouched by setChannel. -/
@[simp] theorem setChannel_normalization (c : ℤ) (l : SpectrogramLayer) :
    (setChannel c l).normalization = l.normalization := by
  unfold setChannel invalidateFFTModel invalidateRenderers; split <;> rfl

/-- Gain is untouched by setWindowSize. -/
@[simp] theorem setWindowSize_gain (ws : ℕ) (l : SpectrogramLayer) :
    (setWindowSize ws l).gain = l.gain := by
  unfold setWindowSize invalidateFFTModel invalidateRenderers; split <;> rfl

/-- Normalization is untouched by setWindowSize. -/
@[simp] theorem setWindowSize_normalization (ws : ℕ) (l : SpectrogramLayer) :
    (setWindowSize ws l).normalization = l.normalization := by
  unfold setWindowSize invalidateFFTModel invalidateRenderers; split <;> rfl

/-- Gain is untouched by setWindowHopLevel. -/
@[simp] theorem setWindowHopLevel_gain (v : ℕ) (l : SpectrogramLayer) :
    (setWindowHopLevel v l).gain = l.gain := by
  unfold setWindowHopLevel invalidateFFTModel invalidateRenderers; split <;> rfl

/-- Normalization is untouched by setWindowHopLevel. -/
@[simp] theorem setWindowHopLevel_normalization (v : ℕ) (l : SpectrogramLayer) :
    (setWindowHopLevel v l).normalization = l.normalization := by
  unfold setWindowHopLevel invalidateFFTModel invalidateRenderers; split <;> rfl

/-- setGain stores its argument as the gain, whether or not it was
already current. -/
@[simp] theorem setGain_gain (g : ℚ) (l : SpectrogramLayer) :
    (setGain g l).gain = g := by
  unfold setGain invalidateRenderers; split
  · assumption
  · rfl

/-- Normalization is untouched by setGain. -/
@[simp] theorem setGain_normalization (g : ℚ) (l : SpectrogramLayer) :
    (setGain g l).normalization = l.normalization := by
  unfold setGain invalidateRenderers; split <;> rfl

/-- Gain is untouched by setThreshold. -/
@[simp] theorem setThreshold_gain (t : ℚ) (l : SpectrogramLayer) :
    (setThreshold t l).gain = l.gain := by
  unfold setThreshold invalidateRenderers; split <;> rfl

/-- Normalization is untouched by setThreshold. -/
@[simp] theorem setThreshold_normalization (t : ℚ) (l : SpectrogramLayer) :
    (setThreshold t l).normalization = l.normalization := by
  unfold setThreshold invalidateRenderers; split <;> rfl

/-- Gain is untouched by setMinFrequency. -/
@[simp] theorem setMinFrequency_gain (mf : ℤ) (l : SpectrogramLayer) :
    (setMinFrequency mf l).gain = l.gain := by
  unfold setMinFrequency invalidateMagnitudes invalidateRenderers; split <;> rfl

/-- Normalization is untouched by setMinFrequency. -/
@[simp] theorem setMinFrequency_normalization (mf : ℤ) (l : SpectrogramLayer) :
    (setMinFrequency mf l).normalization = l.normalization := by
  unfold setMinFrequency invalidateMagnitudes invalidateRenderers; split <;> rfl

/-- Gain is untouched by setMaxFrequency. -/
@[simp] theorem setMaxFrequency_gain (mf : ℤ) (l : SpectrogramLayer) :
    (setMaxFrequency mf l).gain = l.gain := by
  unfold setMaxFrequency invalidateMagnitudes invalidateRenderers; split <;> rfl

/-- Normalization is untouched by setMaxFrequency. -/
@[simp] theorem setMaxFrequency_normalization (mf : ℤ) (l : SpectrogramLayer) :
    (setMaxFrequency mf l).normalization = l.normalization := by
  unfold setMaxFrequency invalidateMagnitudes invalidateRenderers; split <;> rfl

/-- Gain is untouched by setColourScale. -/
@[simp] theorem setColourScale_gain (cs : ColourScaleType) (l : SpectrogramLayer) :
    (setColourScale cs l).gain = l.gain := by
  unfold setColourScale invalidateRenderers; split <;> rfl

/-- Normalization is untouched by setColourScale. -/
@[simp] theorem setColourScale_normalization (cs : ColourScaleType) (l : SpectrogramLayer) :
    (setColourScale cs l).normalization = l.normalization := by
  unfold setColourScale invalidateRenderers; split <;> rfl

/-- Gain is untouched by setColourMap. -/
@[simp] theorem setColourMap_gain (m : ℤ) (l : SpectrogramLayer) :
    (setColourMap m l).gain = l.gain := by
  unfold setColourMap invalidateRenderers; split <;> rfl

/-- Normalization is untouched by setColourMap. -/
@[simp] theorem setColourMap_normalization (m : ℤ) (l : SpectrogramLayer) :
    (setColourMap m l).normalization = l.normalization := by
  unfold setColourMap invalidateRenderers; split <;> rfl

/-- Gain is untouched by setColourRotation. -/
@[simp] theorem setColourRotation_gain (r : ℤ) (l : SpectrogramLayer) :
    (setColourRotation r l).gain = l.gain := by
  simp only [setColourRotation, invalidateRenderers]
  repeat' split
  all_goals rfl

/-- Normalization is untouched by setColourRotation. -/
@[simp] theorem setColourRotation_normalization (r : ℤ) (l : SpectrogramLayer) :
    (setColourRotation r l).normalization = l.normalization := by
  simp only [setColourRotation, invalidateRenderers]
  repeat' split
  all_goals rfl

/-- Gain is untouched by setBinScale. -/
@[simp] theorem setBinScale_gain (bs : BinScale) (l : SpectrogramLayer) :
    (setBinScale bs l).gain = l.gain := by
  unfold setBinScale invalidateRenderers; split <;> rfl

/-- Normalization is untouched by setBinScale. -/
@[simp] theorem setBinScale_normalization (bs : BinScale) (l : SpectrogramLayer) :
    (setBinScale bs l).normalization = l.normalization := by
  unfold setBinScale invalidateRenderers; split <;> rfl

/-- Gain is untouched by setBinDisplay. -/
@[simp] theorem setBinDisplay_gain (bd : BinDisplay) (l : SpectrogramLayer) :
    (setBinDisplay bd l).gain = l.gain := by
  unfold setBinDisplay invalidateRenderers; split <;> rfl

/-- Normalization is untouched by setBinDisplay. -/
@[simp] theorem setBinDisplay_normalization (bd : BinDisplay) (l : SpectrogramLayer) :
    (setBinDisplay bd l).normalization = l.normalization := by
  unfold setBinDisplay invalidateRenderers; split <;> rfl

/-- Gain is untouched by setNormalization. -/
@[simp] theorem setNormalization_gain (n : ColumnNormalization) (l : SpectrogramLayer) :
    (setNormalization n l).gain = l.gain := by
  unfold setNormalization invalidateMagnitudes invalidateRenderers; split <;> rfl

/-- setNormalization stores its argument as the normalization mode. -/
@[simp] theorem setNormalization_normalization (n : ColumnNormalization)
    (l : SpectrogramLayer) : (setNormalization n l).normalization = n := by
  unfold setNormalization invalidateMagnitudes invalidateRenderers; split
  · assumption
  · rfl

/-- Gain is untouched by setNormalizeVisibleArea. -/
@[simp] theorem setNormalizeVisibleArea_gain (b : Bool) (l : SpectrogramLayer) :
    (setNormalizeVisibleArea b l).gain = l.gain := by
  unfold setNormalizeVisibleArea invalidateMagnitudes invalidateRenderers
  split <;> rfl

/-- Normalization is untouched by setNormalizeVisibleArea. -/
@[simp] theorem setNormalizeVisibleArea_normalization (b : Bool) (l : SpectrogramLayer) :
    (setNormalizeVisibleArea b l).normalization = l.normalization := by
  unfold setNormalizeVisibleArea invalidateMagnitudes invalidateRenderers
  split <;> rfl

/-- The FFT size is untouched by setGain (it only depends on window
size and bin display). -/
@[simp] theorem getFFTSize_setGain (env : Env) (g : ℚ) (l : SpectrogramLayer) :
    getFFTSize env (setGain g l) = getFFTSize env l := by
  unfold setGain invalidateRenderers getFFTSize getFFTOversampling
  split <;> rfl

/-- Gain is untouched by the hop-level attribute block. -/
@[simp] theorem applyHopAttributes_gain (a : LayerAttributes) (l : SpectrogramLayer) :
    (applyHopAttributes a l).gain = l.gain := by
  unfold applyHopAttributes
  repeat' split
  all_goals simp

/-- Normalization is untouched by the hop-level attribute block. -/
@[simp] theorem applyHopAttributes_normalization (a : LayerAttributes)
    (l : SpectrogramLayer) :
    (applyHopAttributes a l).normalization = l.normalization := by
  unfold applyHopAttributes
  repeat' split
  all_goals simp

/-- Gain is untouched by the normalization attribute block. -/
@[simp] theorem applyNormalizationAttributes_gain (a : LayerAttributes)
    (l : SpectrogramLayer) :
    (applyNormalizationAttributes a l).1.gain = l.gain := by
  unfold applyNormalizationAttributes
  repeat' split
  all_goals simp

/-- With a new-style columnNormalization key present, the block reports
haveNewStyleNormalization. -/
theorem applyNormalizationAttributes_snd_true (a : LayerAttributes)
    (h : a.columnNormalization ≠ "") :
    ∀ l, (applyNormalizationAttributes a l).2 = true := by
  intro l
  unfold applyNormalizationAttributes
  rw [if_pos h]

/-- With no columnNormalization key, the block reports no new-style
normalization. -/
theorem applyNormalizationAttributes_snd_false (a : LayerAttributes)
    (h : a.columnNormalization = "") :
    ∀ l, (applyNormalizationAttributes a l).2 = false := by
  intro l
  unfold applyNormalizationAttributes
  rw [if_neg (by simp [h])]

/-- With no columnNormalization key and a legacy normalizeHybrid="true"
attribute, the block leaves the layer in Hybrid normalization. -/
theorem applyNormalizationAttributes_hybrid (a : LayerAttributes)
    (h : a.columnNormalization = "") (hh : a.normalizeHybrid = "true") :
    ∀ l, (applyNormalizationAttributes a l).1.normalization
      = ColumnNormalization.hybrid := by
  intro l
  unfold applyNormalizationAttributes
  rw [if_neg (by simp [h])]
  simp [hh]

/-- Gain through the optional threshold stage. -/
@[simp] theorem applyOpt_threshold_gain (o : Option ℚ) (l : SpectrogramLayer) :
    (applyOpt setThreshold o l).gain = l.gain := by
  cases o <;> simp [applyOpt]

/-- Gain through the optional minFrequency stage. -/
@[simp] theorem applyOpt_minFrequency_gain (o : Option ℕ) (l : SpectrogramLayer) :
    (applyOpt (fun (v : ℕ) => setMinFrequency (v : ℤ)) o l).gain = l.gain := by
  cases o <;> simp [applyOpt]

/-- Gain through the optional maxFrequency stage. -/
@[simp] theorem applyOpt_maxFrequency_gain (o : Option ℕ) (l : SpectrogramLayer) :
    (applyOpt (fun (v : ℕ) => setMaxFrequency (v : ℤ)) o l).gain = l.gain := by
  cases o <;> simp [applyOpt]

/-- Gain through the optional colourScale stage. -/
@[simp] theorem applyOpt_colourScale_gain (o : Option ℤ) (l : SpectrogramLayer) :
    (applyOpt (fun v => setColourScale (convertToColourScale v)) o l).gain = l.gain := by
  cases o <;> simp [applyOpt]

/-- Gain through the optional colourScheme stage. -/
@[simp] theorem applyOpt_colourMap_gain (o : Option ℤ) (l : SpectrogramLayer) :
    (applyOpt setColourMap o l).gain = l.gain := by
  cases o <;> simp [applyOpt]

/-- Gain through the optional colourRotation stage. -/
@[simp] theorem applyOpt_colourRotation_gain (o : Option ℤ) (l : SpectrogramLayer) :
    (applyOpt setColourRotation o l).gain = l.gain := by
  cases o <;> simp [applyOpt]

/-- Gain through the optional frequencyScale stage. -/
@[simp] theorem applyOpt_binScale_gain (o : Option ℤ) (l : SpectrogramLayer) :
    (applyOpt (fun v => setBinScale (toBinScale v)) o l).gain = l.gain := by
  cases o <;> simp [applyOpt]

/-- Gain through the optional binDisplay stage. -/
@[simp] theorem applyOpt_binDisplay_gain (o : Option ℤ) (l : SpectrogramLayer) :
    (applyOpt (fun v => setBinDisplay (toBinDisplay v)) o l).gain = l.gain := by
  cases o <;> simp [applyOpt]

/-- The gain stage stores a present gain attribute. -/
@[simp] theorem applyOpt_gain_gain (g : ℚ) (l : SpectrogramLayer) :
    (applyOpt setGain (some g) l).gain = g := by
  simp [applyOpt]

/-- C2: restoring attributes with no new-style columnNormalization key
and legacy normalizeHybrid="true" puts the layer in Hybrid
normalization and divides the restored gain by fftSize/2; a present
columnNormalization key suppresses the division. -/
theorem c2_legacy_hybrid_gain_correction (env : Env) (a : LayerAttributes)
    (l : SpectrogramLayer) (g : ℚ) (hg : a.gain = some g) :
    (a.columnNormalization = "" → a.normalizeHybrid = "true" →
      (setProperties env a l).normalization = ColumnNormalization.hybrid ∧
      (setProperties env a l).gain
        = g / ((getFFTSize env (setProperties env a l) / 2 : ℕ) : ℚ)) ∧
    (a.columnNormalization ≠ "" → (setProperties env a l).gain = g) := by
  constructor
  · intro hcol hhyb
    have h2 := applyNormalizationAttributes_snd_false a hcol
    have h3 := applyNormalizationAttributes_hybrid a hcol hhyb
    simp only [setProperties, hg, h2, h3, setNormalizeVisibleArea_normalization,
      Bool.false_eq_true, not_false_eq_true, true_and, eq_self_iff_true, if_true,
      setGain_normalization, setGain_gain, getFFTSize_setGain,
      setNormalizeVisibleArea_gain, applyNormalizationAttributes_gain,
      applyOpt_binDisplay_gain, applyOpt_binScale_gain, applyOpt_colourRotation_gain,
      applyOpt_colourMap_gain, applyOpt_colourScale_gain, applyOpt_maxFrequency_gain,
      applyOpt_minFrequency_gain, applyOpt_threshold_gain, applyOpt_gain_gain,
      and_self]
  · intro hcol
    have h2 := applyNormalizationAttributes_snd_true a hcol
    simp only [setProperties, hg, h2, not_true, not_true_eq_false,
      false_and, if_false, setNormalizeVisibleArea_gain,
      applyNormalizationAttributes_gain,
      applyOpt_binDisplay_gain, applyOpt_binScale_gain, applyOpt_colourRotation_gain,
      applyOpt_colourMap_gain, applyOpt_colourScale_gain, applyOpt_maxFrequency_gain,
      applyOpt_minFrequency_gain, applyOpt_threshold_gain, applyOpt_gain_gain]

/-- The attribute set of the C2 example: a legacy session carrying
gain=1.0, windowSize=2048 (so fftSize 2048 with no oversampling),
normalizeHybrid="true" and no columnNormalization key. -/
def attrsC2 : LayerAttributes :=
  { channel := none, windowSize := some 2048, windowHopLevel := none,
    windowOverlap := none, gain := some 1, threshold := none,
    minFrequency := none, maxFrequency := none, colourScale := none,
    colourScheme := none, colourRotation := none, frequencyScale := none,
    binDisplay := none, columnNormalization := "", normalizeColumns := "",
    normalizeHybrid := "true", normalizeVisibleArea := "" }

/-- The FFT size is untouched by setNormalizeVisibleArea. -/
@[simp] theorem getFFTSize_setNormalizeVisibleArea (env : Env) (b : Bool)
    (l : SpectrogramLayer) :
    getFFTSize env (setNormalizeVisibleArea b l) = getFFTSize env l := by
  unfold setNormalizeVisibleArea invalidateMagnitudes invalidateRenderers
    getFFTSize getFFTOversampling
  split <;> rfl

/-- The FFT size is untouched by setNormalization. -/
@[simp] theorem getFFTSize_setNormalization (env : Env) (n : ColumnNormalization)
    (l : SpectrogramLayer) :
    getFFTSize env (setNormalization n l) = getFFTSize env l := by
  unfold setNormalization invalidateMagnitudes invalidateRenderers
    getFFTSize getFFTOversampling
  split <;> rfl

/-- The FFT size is untouched by the normalization attribute block. -/
@[simp] theorem getFFTSize_applyNormalizationAttributes (env : Env)
    (a : LayerAttributes) (l : SpectrogramLayer) :
    getFFTSize env (applyNormalizationAttributes a l).1 = getFFTSize env l := by
  unfold applyNormalizationAttributes
  repeat' split
  all_goals simp

/-- Witness for C2: loading attrsC2 over the default layer yields
Hybrid normalization and an effective gain of 1/1024 (= 1 divided by
fftSize/2 = 1024). -/
theorem c2_witness :
    attrsC2.gain = some 1 ∧ attrsC2.columnNormalization = "" ∧
    attrsC2.normalizeHybrid = "true" ∧
    ((setProperties baseEnv attrsC2 baseLayer).normalization
        = ColumnNormalization.hybrid ∧
      (setProperties baseEnv attrsC2 baseLayer).gain
        = 1 / ((getFFTSize baseEnv (setProperties baseEnv attrsC2 baseLayer) / 2 : ℕ) : ℚ)) ∧
    (setProperties baseEnv attrsC2 baseLayer).gain = 1 / 1024 := by
  have h := (c2_legacy_hybrid_gain_correction baseEnv attrsC2 baseLayer 1 rfl).1 rfl rfl
  refine ⟨rfl, rfl, rfl, h, ?_⟩
  rw [h.2]
  have hfs : getFFTSize baseEnv (setProperties baseEnv attrsC2 baseLayer) = 2048 := by
    simp only [setProperties, applyOpt, applyHopAttributes,
      show attrsC2.channel = none from rfl,
      show attrsC2.windowSize = some 2048 from rfl,
      show attrsC2.windowHopLevel = none from rfl,
      show attrsC2.windowOverlap = none from rfl,
      show attrsC2.gain = some 1 from rfl,
      show attrsC2.threshold = none from rfl,
      show attrsC2.minFrequency = none from rfl,
      show attrsC2.maxFrequency = none from rfl,
      show attrsC2.colourScale = none from rfl,
      show attrsC2.colourScheme = none from rfl,
      show attrsC2.colourRotation = none from rfl,
      show attrsC2.frequencyScale = none from rfl,
      show attrsC2.binDisplay = none from rfl,
      show attrsC2.normalizeVisibleArea = "" from rfl]
    simp only [applyNormalizationAttributes_snd_false attrsC2 rfl,
      setNormalizeVisibleArea_normalization,
      applyNormalizationAttributes_hybrid attrsC2 rfl rfl,
      Bool.false_eq_true, not_false_eq_true, true_and, eq_self_iff_true, if_true,
      getFFTSize_setGain, getFFTSize_setNormalizeVisibleArea,
      getFFTSize_applyNormalizationAttributes]
    decide
  rw [hfs]
  norm_num

/-- C4: in setVerticalZoomStep, for a target range width obtained from
the zoom step, the Log-scale branch picks the positive root of
newmax^2 - newdist*newmax - dmin*dmax = 0 and newmin = newmax - newdist,
so the geometric midpoint sqrt(newmin*newmax) equals sqrt(dmin*dmax);
the Linear branch preserves the arithmetic midpoint (dmin+dmax)/2. -/
theorem c4_zoom_step_preserves_midpoints (d dmin dmax : ℝ)
    (hd : ∃ sr step, d = getValueForPosition sr step)
    (hmin : 0 ≤ dmin) (hmax : 0 ≤ dmax) :
    (setVerticalZoomStepRange BinScale.log d dmin dmax).2
        = (d + Real.sqrt (d * d + 4 * dmin * dmax)) / 2 ∧
    (setVerticalZoomStepRange BinScale.log d dmin dmax).1
        = (setVerticalZoomStepRange BinScale.log d dmin dmax).2 - d ∧
    (setVerticalZoomStepRange BinScale.log d dmin dmax).2 ^ 2
        - d * (setVerticalZoomStepRange BinScale.log d dmin dmax).2
        - dmin * dmax = 0 ∧
    Real.sqrt ((setVerticalZoomStepRange BinScale.log d dmin dmax).1
        * (setVerticalZoomStepRange BinScale.log d dmin dmax).2)
        = Real.sqrt (dmin * dmax) ∧
    ((setVerticalZoomStepRange BinScale.linear d dmin dmax).1
        + (setVerticalZoomStepRange BinScale.linear d dmin dmax).2) / 2
        = (dmin + dmax) / 2 := by
  clear hd
  have hS : Real.sqrt (d * d + 4 * dmin * dmax) ^ 2 = d * d + 4 * dmin * dmax := by
    rw [Real.sq_sqrt]
    nlinarith [mul_self_nonneg d, mul_nonneg hmin hmax]
  refine ⟨rfl, rfl, ?_, ?_, ?_⟩
  · show ((d + Real.sqrt (d * d + 4 * dmin * dmax)) / 2) ^ 2
        - d * ((d + Real.sqrt (d * d + 4 * dmin * dmax)) / 2) - dmin * dmax = 0
    linear_combination hS / 4
  · have hprod : (setVerticalZoomStepRange BinScale.log d dmin dmax).1
        * (setVerticalZoomStepRange BinScale.log d dmin dmax).2 = dmin * dmax := by
      show ((d + Real.sqrt (d * d + 4 * dmin * dmax)) / 2 - d)
          * ((d + Real.sqrt (d * d + 4 * dmin * dmax)) / 2) = dmin * dmax
      linear_combination hS / 4
    rw [hprod]
  · show ((dmax + dmin) / 2 - d / 2 + ((dmax + dmin) / 2 + d / 2)) / 2
        = (dmin + dmax) / 2
    ring

/-- Witness for C4 at newdist = getValueForPosition 2 0 (= 1 Hz), with
extents dmin = 1, dmax = 4. -/
theorem c4_witness :
    (∃ sr step, getValueForPosition 2 0 = getValueForPosition sr step) ∧
    (setVerticalZoomStepRange BinScale.log (getValueForPosition 2 0) 1 4).2 ^ 2
        - getValueForPosition 2 0
          * (setVerticalZoomStepRange BinScale.log (getValueForPosition 2 0) 1 4).2
        - 1 * 4 = 0 ∧
    Real.sqrt ((setVerticalZoomStepRange BinScale.log (getValueForPosition 2 0) 1 4).1
        * (setVerticalZoomStepRange BinScale.log (getValueForPosition 2 0) 1 4).2)
        = Real.sqrt (1 * 4) ∧
    ((setVerticalZoomStepRange BinScale.linear (getValueForPosition 2 0) 1 4).1
        + (setVerticalZoomStepRange BinScale.linear (getValueForPosition 2 0) 1 4).2) / 2
        = (1 + 4) / 2 := by
  have h := c4_zoom_step_preserves_midpoints (getValueForPosition 2 0) 1 4
    ⟨2, 0, rfl⟩ (by norm_num) (by norm_num)
  exact ⟨⟨2, 0, rfl⟩, h.2.2.1, h.2.2.2.1, h.2.2.2.2⟩

/-- The running dist is positive for a positive sample rate. -/
theorem distAt_pos (sr : ℝ) (hsr : 0 < sr) (n : ℕ) : 0 < distAt sr n := by
  rw [distAt_eq]
  exact div_pos (by linarith) (pow_pos s2_pos n)

/-- The running dist decreases along the loop. -/
theorem distAt_antitone (sr : ℝ) (hsr : 0 < sr) {m n : ℕ} (h : m ≤ n) :
    distAt sr n ≤ distAt sr m := by
  rw [distAt_eq, distAt_eq]
  gcongr
  · linarith [pow_pos s2_pos m]
  · exact one_lt_s2.le

/-- C5: the zoom step mapping round-trips: for every step n reachable
as getPositionForValue of some value, feeding the step's range width
back through getPositionForValue returns n. -/
theorem c5_zoom_step_round_trip (sr : ℝ) (hsr : 0 < sr) (n : ℕ)
    (hvalid : ∃ v, getPositionForValue sr v = n) :
    getPositionForValue sr (getValueForPosition sr n) = n := by
  obtain ⟨v, hv⟩ := hvalid
  rw [getPositionForValue_eq_iff] at hv
  obtain ⟨_, hmins⟩ := hv
  rw [getPositionForValue_eq_iff]
  constructor
  · intro hc
    have h1 : distAt sr n > getValueForPosition sr n + epsStop := hc.1
    simp only [getValueForPosition] at h1
    have heps : (0 : ℝ) < epsStop := by norm_num [epsStop]
    linarith
  · intro m hm
    have hn1 : 1 ≤ n := by omega
    obtain ⟨_, hB1⟩ := not_not.mp
      (by simpa [stopCond] using hmins (n - 1) (by omega))
    have hstep : distAt sr (n - 1 + 1) = distAt sr (n - 1) / s2 := rfl
    rw [Nat.sub_add_cancel hn1] at hstep
    have hpos : 0 < distAt sr n := distAt_pos sr hsr n
    have hlow : distAt sr n > 1 / 12 := by
      rw [hstep]
      rw [gt_iff_lt, lt_div_iff₀ s2_pos]
      nlinarith [s2_lt, s2_pos, hB1]
    have hmge : distAt sr (n - 1) ≤ distAt sr m := distAt_antitone sr hsr (by omega)
    have heqn : distAt sr (n - 1) = s2 * distAt sr n := by
      rw [hstep, mul_comm, div_mul_cancel₀ _ (ne_of_gt s2_pos)]
    have hm2 : distAt sr m > v + epsStop ∧ distAt sr m > 1 / 10 := by
      have hx := hmins m hm
      unfold stopCond at hx
      exact not_not.mp hx
    unfold stopCond
    rw [not_not]
    refine ⟨?_, hm2.2⟩
    simp only [getValueForPosition, epsStop]
    rw [heqn] at hmge
    nlinarith [s2_gt, mul_pos (by nlinarith [s2_gt] : (0:ℝ) < s2 - 1.18)
      (by linarith : (0:ℝ) < distAt sr n - 1 / 12)]

/-- Witness for C5 at sample rate 2 with step 0 (reached by value 1). -/
theorem c5_witness :
    (0 : ℝ) < 2 ∧ (∃ v, getPositionForValue 2 v = 0) ∧
    getPositionForValue 2 (getValueForPosition 2 0) = 0 := by
  have h0 : getPositionForValue 2 1 = 0 := by
    rw [getPositionForValue_eq_iff]
    refine ⟨?_, by intro m hm; omega⟩
    unfold stopCond
    rw [distAt_eq]
    norm_num [epsStop]
  exact ⟨by norm_num, ⟨1, h0⟩,
    c5_zoom_step_round_trip 2 (by norm_num) 0 ⟨1, h0⟩⟩

/-- The fourth power of s2^k is 2^k. -/
theorem s2_pow_pow_four (k : ℕ) : (s2 ^ k) ^ 4 = 2 ^ k := by
  rw [← pow_mul, mul_comm, pow_mul, s2_pow_four]

/-- C6 (amended): the zoom mapper is geometric with per-step factor s2
where s2^4 = 2; step 0 corresponds to the full Nyquist-wide range
sr/2; the number of steps reported by getVerticalZoomSteps equals
getPositionForValue sr 0, whose range is at most the loop's fixed
0.1 Hz floor — hence narrower than one FFT bin's resolution
sr/fftSize whenever that resolution exceeds 0.1 Hz (but not in
general). -/
theorem c6_zoom_mapper_geometric (sr : ℝ)
    (env : Env) (l : SpectrogramLayer) (am : AudioModel)
    (hm : l.model = some am) (hsreq : ((am.sampleRate : ℚ) : ℝ) = sr) :
    (∀ n : ℕ, getValueForPosition sr (n + 1) = getValueForPosition sr n / s2) ∧
    s2 ^ 4 = 2 ∧
    getValueForPosition sr 0 = sr / 2 ∧
    (getVerticalZoomSteps l).1 = (getPositionForValue sr 0 : ℤ) ∧
    getValueForPosition sr (getPositionForValue sr 0) ≤ 1 / 10 ∧
    (1 / 10 < sr / (getFFTSize env l : ℝ) →
      getValueForPosition sr (getPositionForValue sr 0) < sr / (getFFTSize env l : ℝ)) := by
  have hmin0 : getPositionForValue sr (sr / 2) = 0 := by
    rw [getPositionForValue_eq_iff]
    refine ⟨?_, by intro m hm'; omega⟩
    unfold stopCond
    rw [distAt_eq]
    intro hcc
    have h1 := hcc.1
    rw [pow_zero, div_one] at h1
    have : (0 : ℝ) < epsStop := by norm_num [epsStop]
    linarith
  have hle : getValueForPosition sr (getPositionForValue sr 0) ≤ 1 / 10 := by
    have hfind := (getPositionForValue_eq_iff sr 0 (getPositionForValue sr 0)).mp rfl
    have hstop := hfind.1
    unfold stopCond at hstop
    show distAt sr (getPositionForValue sr 0) ≤ 1 / 10
    rcases not_and_or.mp hstop with h | h
    · have h1 : distAt sr (getPositionForValue sr 0) ≤ 0 + epsStop := not_lt.mp h
      have : epsStop ≤ 1 / 10 := by norm_num [epsStop]
      linarith
    · exact not_lt.mp h
  refine ⟨fun n => rfl, s2_pow_four, rfl, ?_, hle, fun h => lt_of_le_of_lt hle h⟩
  unfold getVerticalZoomSteps
  simp only [hm]
  rw [hsreq, hmin0]
  simp

/-- The audio model of the C6 counterexample: an 8 Hz sample rate. -/
def amC6 : AudioModel := { baseAM with sampleRate := 8 }

/-- The layer of the C6 counterexample: fftSize 1024 at 8 Hz, so the
bin resolution 8/1024 Hz is far below the mapper's 0.1 Hz floor. -/
def layerC6 : SpectrogramLayer := { baseLayer with model := some amC6 }

/-- Counterexample to C6 as stated: on layerC6 getVerticalZoomSteps
reports 22 steps, but the range of the maximum step 22 is larger than
one FFT bin's frequency resolution 8/1024 Hz (the loop clamps at the
fixed 0.1 Hz floor instead). -/
theorem c6_counterexample :
    ((amC6.sampleRate : ℚ) : ℝ) = 8 ∧
    getFFTSize baseEnv layerC6 = 1024 ∧
    (getVerticalZoomSteps layerC6).1 = 22 ∧
    getValueForPosition 8 22 > 8 / 1024 := by
  have hsr : ((amC6.sampleRate : ℚ) : ℝ) = 8 := by norm_num [amC6, baseAM]
  have hmax : getPositionForValue 8 0 = 22 := by
    rw [getPositionForValue_eq_iff]
    constructor
    · unfold stopCond
      rw [distAt_eq]
      intro hcon
      have h2 : (40 : ℝ) ≤ s2 ^ 22 := by
        have h4 : (40 : ℝ) ^ 4 ≤ (s2 ^ 22) ^ 4 := by
          rw [s2_pow_pow_four]; norm_num
        exact le_of_pow_le_pow_left (by norm_num) (pow_nonneg s2_pos.le 22) h4
      have h3 := hcon.2
      rw [gt_iff_lt, lt_div_iff₀ (pow_pos s2_pos 22)] at h3
      nlinarith
    · intro m hm'
      unfold stopCond
      rw [not_not, distAt_eq]
      have hlt : s2 ^ m < 40 := by
        have h1 : s2 ^ m ≤ s2 ^ 21 := pow_le_pow_right one_lt_s2.le (by omega)
        have h4 : (s2 ^ 21) ^ 4 < (40 : ℝ) ^ 4 := by
          rw [s2_pow_pow_four]; norm_num
        have h5 := lt_of_pow_lt_pow_left₀ 4 (by norm_num : (0:ℝ) ≤ 40) h4
        linarith
      have hp : (0 : ℝ) < s2 ^ m := pow_pos s2_pos m
      constructor
      · rw [gt_iff_lt, lt_div_iff₀ hp]
        simp only [epsStop]
        nlinarith
      · rw [gt_iff_lt, lt_div_iff₀ hp]
        nlinarith
  have hmin : getPositionForValue 8 (8 / 2) = 0 := by
    rw [getPositionForValue_eq_iff]
    refine ⟨?_, by intro m hm'; omega⟩
    unfold stopCond
    rw [distAt_eq]
    intro hcc
    have h1 := hcc.1
    rw [pow_zero, div_one] at h1
    norm_num [epsStop] at h1
  refine ⟨hsr, rfl, ?_, ?_⟩
  · unfold getVerticalZoomSteps
    simp only [show layerC6.model = some amC6 from rfl]
    rw [hsr, hmax, hmin]
    simp
  · unfold getValueForPosition
    rw [distAt_eq]
    have hlt : s2 ^ 22 < 512 := by
      have h4 : (s2 ^ 22) ^ 4 < (512 : ℝ) ^ 4 := by
        rw [s2_pow_pow_four]; norm_num
      exact lt_of_pow_lt_pow_left₀ 4 (by norm_num) h4
    rw [gt_iff_lt, lt_div_iff₀ (pow_pos s2_pos 22)]
    nlinarith

/-- Witness for the amended C6 theorem at the 8 Hz configuration. -/
theorem c6_witness :
    layerC6.model = some amC6 ∧ ((amC6.sampleRate : ℚ) : ℝ) = 8 ∧
    ((∀ n : ℕ, getValueForPosition 8 (n + 1) = getValueForPosition 8 n / s2) ∧
     s2 ^ 4 = 2 ∧
     getValueForPosition 8 0 = 8 / 2 ∧
     (getVerticalZoomSteps layerC6).1 = (getPositionForValue 8 0 : ℤ) ∧
     getValueForPosition 8 (getPositionForValue 8 0) ≤ 1 / 10 ∧
     (1 / 10 < 8 / (getFFTSize baseEnv layerC6 : ℝ) →
       getValueForPosition 8 (getPositionForValue 8 0)
         < 8 / (getFFTSize baseEnv layerC6 : ℝ))) :=
  ⟨rfl, by norm_num [amC6, baseAM],
   c6_zoom_mapper_geometric 8 baseEnv layerC6 amC6 rfl (by norm_num [amC6, baseAM])⟩

/-- A nested fold over a rectangle of indices equals the flat fold over
the flattened pair list. -/
theorem foldl_nested_eq_flatMap {β : Type} (qs ss : List ℤ)
    (g : β → ℤ → ℤ → β) (init : β) :
    qs.foldl (fun st q => ss.foldl (fun st s => g st q s) st) init
      = (qs.flatMap (fun q => ss.map (fun s => (q, s)))).foldl
          (fun st p => g st p.1 p.2) init := by
  induction qs generalizing init with
  | nil => rfl
  | cons q qs ih =>
    rw [List.foldl_cons, ih, List.flatMap_cons, List.foldl_append, List.foldl_map]

/-- A fold that skips elements failing a test equals the fold over the
filterMap keeping exactly the passing values. -/
theorem foldl_guard_filterMap {β : Type} (ps : List (ℤ × ℤ)) (c : ℤ × ℤ → Prop)
    [DecidablePred c] (f : ℤ × ℤ → ℚ) (upd : β → ℚ → β) (init : β) :
    ps.foldl (fun st p => if c p then upd st (f p) else st) init
      = (ps.filterMap (fun p => if c p then some (f p) else none)).foldl upd init := by
  induction ps generalizing init with
  | nil => rfl
  | cons p ps ih =>
    by_cases h : c p <;> simp [List.filterMap_cons, h, ih]

/-- Once the have flag is set, the accumulation step keeps the running
minimum and maximum. -/
theorem foldl_adjStep_true (r : List ℚ) : ∀ mn mx,
    r.foldl adjStep (true, mn, mx) = (true, r.foldl min mn, r.foldl max mx) := by
  induction r with
  | nil => intro mn mx; rfl
  | cons b r ih =>
    intro mn mx
    rw [List.foldl_cons, List.foldl_cons, List.foldl_cons]
    have h1 : adjStep (true, mn, mx) b = (true, min mn b, max mx b) := by
      unfold adjStep
      have hmin : (if (true : Bool) = false ∨ b < mn then b else mn) = min mn b := by
        by_cases hb : b < mn
        · rw [if_pos (Or.inr hb), min_eq_right hb.le]
        · rw [if_neg (by simp [hb]), min_eq_left (not_lt.mp hb)]
      have hmax : (if (true : Bool) = false ∨ b > mx then b else mx) = max mx b := by
        by_cases hb : b > mx
        · rw [if_pos (Or.inr hb), max_eq_right hb.le]
        · rw [if_neg (by simp [hb]), max_eq_left (not_lt.mp hb)]
      rw [hmin, hmax]
    rw [h1, ih]

/-- Folding the accumulation step from the no-value start state yields
exactly the specification-level result. -/
theorem foldl_adjStep_spec (L : List ℚ) :
    L.foldl adjStep (false, 0, 0) = adjSpecOf L := by
  cases L with
  | nil => rfl
  | cons a r =>
    rw [List.foldl_cons]
    have hstart : adjStep (false, 0, 0) a = (true, a, a) := by
      unfold adjStep
      rw [if_pos (Or.inl rfl), if_pos (Or.inl rfl)]
    rw [hstart, foldl_adjStep_true]
    rfl

/-- The double loop of getAdjustedYBinSourceRange computes the
specification-level result over the pass list. -/
theorem adjLoop_eq_spec (env : Env) (l : SpectrogramLayer) (fft : FFTModel)
    (s0i s1i q0i q1i : ℤ) :
    adjLoop env l fft s0i s1i q0i q1i
      = adjSpecOf (adjPassList env l fft s0i s1i q0i q1i) := by
  unfold adjLoop adjPassList
  rw [foldl_nested_eq_flatMap]
  rw [foldl_guard_filterMap _ (fun p => adjCond env l fft p.1 p.2)
      (fun p => adjVal l fft p.1 p.2) adjStep _]
  exact foldl_adjStep_spec _

/-- C8: with the model ready, an FFT model available and the pixel's
bin block in range, getAdjustedYBinSourceRange returns the
specification-level result over exactly the bins passing the
local-peak/threshold/next-column filters: "no value" (false, 0, 0)
when no bin passes, and otherwise true together with the minimum and
maximum estimateStableFrequency result over the passing bins. -/
theorem c8_adjusted_range_min_max (env : Env) (l : SpectrogramLayer)
    (am : AudioModel) (fft : FFTModel) (v : ViewGeom) (x y : ℤ)
    (s0 s1 q0 q1 : ℚ)
    (hm : l.model = some am) (hok : am.isOK = true) (hready : am.isReady = true)
    (hfft : (getFFTModel env l).2 = some fft)
    (hx : getXBinRange l v x = some (s0, s1))
    (hy : getYBinRange env l v y = some (q0, q1)) :
    getAdjustedYBinSourceRange env l v x y
      = adjSpecOf (adjPassList env l fft (cppInt (s0 + 1/1000)) (cppInt s1)
          (cppInt (q0 + 1/1000)) (cppInt q1)) ∧
    ((getAdjustedYBinSourceRange env l v x y).1 = false ↔
      adjPassList env l fft (cppInt (s0 + 1/1000)) (cppInt s1)
          (cppInt (q0 + 1/1000)) (cppInt q1) = []) ∧
    ((getAdjustedYBinSourceRange env l v x y).1 = false →
      getAdjustedYBinSourceRange env l v x y = (false, 0, 0)) := by
  have hmain : getAdjustedYBinSourceRange env l v x y
      = adjSpecOf (adjPassList env l fft (cppInt (s0 + 1/1000)) (cppInt s1)
          (cppInt (q0 + 1/1000)) (cppInt q1)) := by
    unfold getAdjustedYBinSourceRange
    rw [hm]
    simp only [hok, hready, and_self, not_true_eq_false, if_false, hfft, hx, hy]
    exact adjLoop_eq_spec env l fft _ _ _ _
  refine ⟨hmain, ?_, ?_⟩
  · rw [hmain]
    cases hL : adjPassList env l fft (cppInt (s0 + 1/1000)) (cppInt s1)
        (cppInt (q0 + 1/1000)) (cppInt q1) with
    | nil => simp [adjSpecOf]
    | cons a r => simp [adjSpecOf]
  · intro hfalse
    rw [hmain] at hfalse ⊢
    cases hL : adjPassList env l fft (cppInt (s0 + 1/1000)) (cppInt s1)
        (cppInt (q0 + 1/1000)) (cppInt q1) with
    | nil => rfl
    | cons a r => rw [hL] at hfalse; simp [adjSpecOf] at hfalse

/-- The view used by the C8 witness: two pixel rows, identity time
map, constant 1 Hz frequency map. -/
def viewC8 : ViewGeom :=
  { paintHeight := 2, frameForX := fun x => x,
    frequencyForY := fun _ _ _ _ => 1,
    yForFrequency := fun _ _ _ _ => 0 }

/-- Witness for C8 at pixel (0, 1) of viewC8 on a layer whose FFT model
has width 0, so no bin has a next time column and the mapper reports
no value. -/
theorem c8_witness :
    layerC1w.model = some baseAM ∧ baseAM.isOK = true ∧ baseAM.isReady = true ∧
    (getFFTModel baseEnv layerC1w).2 = some fftBase ∧
    getXBinRange layerC1w viewC8 0 = some (0, 0) ∧
    getYBinRange baseEnv layerC1w viewC8 1 = some (8/125, 8/125) ∧
    getAdjustedYBinSourceRange baseEnv layerC1w viewC8 0 1
      = adjSpecOf (adjPassList baseEnv layerC1w fftBase (cppInt (0 + 1/1000))
          (cppInt 0) (cppInt (8/125 + 1/1000)) (cppInt (8/125))) ∧
    getAdjustedYBinSourceRange baseEnv layerC1w viewC8 0 1 = (false, 0, 0) := by
  have hfft : (getFFTModel baseEnv layerC1w).2 = some fftBase := by
    rw [getFFTModel_cached baseEnv layerC1w baseAM fftBase rfl rfl rfl rfl]
  have hx : getXBinRange layerC1w viewC8 0 = some (0, 0) := by
    norm_num [getXBinRange, layerC1w, baseLayer, baseAM, viewC8, getWindowIncrement]
  have hy : getYBinRange baseEnv layerC1w viewC8 1 = some (8/125, 8/125) := by
    norm_num [getYBinRange, getBinForY, modelSampleRate, layerC1w, baseLayer,
      baseAM, viewC8, getFFTSize, getFFTOversampling, baseEnv]
  have h := c8_adjusted_range_min_max baseEnv layerC1w baseAM fftBase viewC8 0 1
    0 0 (8/125) (8/125) rfl rfl rfl hfft hx hy
  have hL : adjPassList baseEnv layerC1w fftBase (cppInt (0 + 1/1000))
      (cppInt 0) (cppInt (8/125 + 1/1000)) (cppInt (8/125)) = [] := by
    have hc1 : cppInt (0 + 1/1000 : ℚ) = 0 := by
      norm_num [cppInt]
    have hc2 : cppInt (0 : ℚ) = 0 := by norm_num [cppInt]
    have hc3 : cppInt (8/125 + 1/1000 : ℚ) = 0 := by
      norm_num [cppInt]
    have hc4 : cppInt (8/125 : ℚ) = 0 := by
      norm_num [cppInt]
    rw [hc1, hc2, hc3, hc4]
    simp [adjPassList, intRange, adjCond, fftBase]
  refine ⟨rfl, rfl, rfl, hfft, hx, hy, h.1, ?_⟩
  rw [h.1, hL]
  rfl

/-- The modelled Linear-scale frequency axis is inverted exactly by
viewFrequencyForY. -/
theorem view_freq_roundtrip_linear (h minf maxf f : ℝ) (hh : h ≠ 0)
    (hmM : maxf - minf ≠ 0) :
    viewFrequencyForY h (viewYForFrequency h f minf maxf false) minf maxf false
      = f := by
  unfold viewYForFrequency viewFrequencyForY
  simp only [Bool.false_eq_true, if_false]
  field_simp

/-- The modelled Log-scale frequency axis is inverted exactly by
viewFrequencyForY on positive frequencies. -/
theorem view_freq_roundtrip_log (h minf maxf f : ℝ) (hh : h ≠ 0) (hf : 0 < f)
    (hlm : Real.log maxf - Real.log minf ≠ 0) :
    viewFrequencyForY h (viewYForFrequency h f minf maxf true) minf maxf true
      = f := by
  unfold viewYForFrequency viewFrequencyForY
  simp only [if_true]
  rw [← Real.exp_log hf]
  congr 1
  field_simp

/-- C9 (amended): frequency-axis round trip for a fixed Display
Parameter set (fixed effective frequencies, bin scale, fftSize, sample
rate) and fixed view height, with the view's pixel-frequency maps
modelled from the spec: getBinForY(getYForBin(b)) recovers b exactly
(hence within one pixel), for every bin b in [0, fftSize/2] under
Linear scale and every b in [1, fftSize/2] under Log scale; the DC bin
0 under Log scale is excluded — its frequency 0 lies outside the
affine-in-log axis's domain and does not round-trip (see the
counterexample). -/
theorem c9_axis_round_trip (env : Env) (l : SpectrogramLayer) (am : AudioModel)
    (h : ℝ) (hm : l.model = some am)
    (hsr : (0 : ℝ) < ((modelSampleRate l : ℚ) : ℝ))
    (hfft : 0 < getFFTSize env l) (hh : h ≠ 0) :
    (l.binScale = BinScale.linear →
      ((getEffectiveMaxFrequency env l : ℚ) : ℝ)
          - ((getEffectiveMinFrequency env l : ℚ) : ℝ) ≠ 0 →
      ∀ b : ℝ, 0 ≤ b → b ≤ (getFFTSize env l : ℝ) / 2 →
        getBinForYR env l h (getYForBinR env l h b) = b) ∧
    (l.binScale = BinScale.log →
      Real.log ((getEffectiveMaxFrequency env l : ℚ) : ℝ)
          - Real.log ((getEffectiveMinFrequency env l : ℚ) : ℝ) ≠ 0 →
      ∀ b : ℝ, 1 ≤ b → b ≤ (getFFTSize env l : ℝ) / 2 →
        getBinForYR env l h (getYForBinR env l h b) = b) := by
  have hF : (0 : ℝ) < (getFFTSize env l : ℝ) := by exact_mod_cast hfft
  constructor
  · intro hbs hne b _ _
    unfold getBinForYR getYForBinR
    simp only [hbs]
    rw [show (decide (BinScale.linear = BinScale.log)) = false from rfl]
    rw [view_freq_roundtrip_linear _ _ _ _ hh hne]
    field_simp
  · intro hbs hne b hb1 _
    unfold getBinForYR getYForBinR
    simp only [hbs]
    simp only [decide_True]
    have hfreq : 0 < b * ((modelSampleRate l : ℚ) : ℝ) / (getFFTSize env l : ℝ) := by
      have hb0 : (0 : ℝ) < b := lt_of_lt_of_le one_pos hb1
      positivity
    rw [view_freq_roundtrip_log _ _ _ _ hh hfreq hne]
    field_simp

/-- Witness for C9 on the Linear-scale example configuration
(sr 16000, fftSize 1024, display 0..8000 Hz, height 100, bin 512). -/
theorem c9_witness :
    layerC3.model = some baseAM ∧
    (0 : ℝ) < ((modelSampleRate layerC3 : ℚ) : ℝ) ∧
    0 < getFFTSize baseEnv layerC3 ∧ (100 : ℝ) ≠ 0 ∧
    layerC3.binScale = BinScale.linear ∧
    getBinForYR baseEnv layerC3 100 (getYForBinR baseEnv layerC3 100 512) = 512 := by
  have hsr : (0 : ℝ) < ((modelSampleRate layerC3 : ℚ) : ℝ) := by
    norm_num [modelSampleRate, layerC3, baseLayer, baseAM]
  have hq : getEffectiveMinFrequency baseEnv layerC3 = 125 / 8 := by
    norm_num [getEffectiveMinFrequency, modelSampleRate, layerC3, baseLayer,
      baseAM, getFFTSize, getFFTOversampling, baseEnv]
  have hqM : getEffectiveMaxFrequency baseEnv layerC3 = 8000 := by
    norm_num [getEffectiveMaxFrequency, modelSampleRate, layerC3, baseLayer,
      baseAM, getFFTSize, getFFTOversampling, baseEnv, cppInt]
  have hne : ((getEffectiveMaxFrequency baseEnv layerC3 : ℚ) : ℝ)
      - ((getEffectiveMinFrequency baseEnv layerC3 : ℚ) : ℝ) ≠ 0 := by
    rw [hq, hqM]
    push_cast
    norm_num
  refine ⟨rfl, hsr, by decide, by norm_num, rfl, ?_⟩
  exact (c9_axis_round_trip baseEnv layerC3 baseAM 100 rfl hsr (by decide)
    (by norm_num)).1 rfl hne 512 (by norm_num)
    (by norm_num [getFFTSize, getFFTOversampling, layerC3, baseLayer, baseEnv])

/-- The layer of the C9 counterexample: the example configuration
under Log bin scale (sr 16000, fftSize 1024, display 0..8000 Hz). -/
def layerC9 : SpectrogramLayer := { layerC3 with binScale := BinScale.log }

/-- Behaviour of the modelled log axis around the image of frequency
zero: mapping frequency 0 down and coming back t pixels away yields
exp(-D*t/h) where D is the log-range width — in particular frequency
1, not 0, at t = 0. -/
theorem view_log_axis_pixel (h minf maxf : ℝ) (hh : h ≠ 0)
    (hD : Real.log maxf - Real.log minf ≠ 0) (t : ℝ) :
    viewFrequencyForY h (viewYForFrequency h 0 minf maxf true + t) minf maxf true
      = Real.exp (-(Real.log maxf - Real.log minf) * t / h) := by
  unfold viewYForFrequency viewFrequencyForY
  simp only [if_true, Real.log_zero]
  congr 1
  field_simp
  ring

/-- Counterexample to C9 as stated: under Log bin scale the DC bin 0
does not round-trip within one pixel. On layerC9 (height 100) the
round trip of bin 0 returns 8/125 of a bin, and the distance from 0
exceeds one pixel's worth of bin index at that location in both
directions (the bins one pixel above and below the image of bin 0). -/
theorem c9_counterexample :
    layerC9.binScale = BinScale.log ∧
    getBinForYR baseEnv layerC9 100 (getYForBinR baseEnv layerC9 100 0) = 8 / 125 ∧
    getBinForYR baseEnv layerC9 100 (getYForBinR baseEnv layerC9 100 0) ≠ 0 ∧
    |getBinForYR baseEnv layerC9 100 (getYForBinR baseEnv layerC9 100 0) - 0|
      > |getBinForYR baseEnv layerC9 100 (getYForBinR baseEnv layerC9 100 0 + 1)
          - getBinForYR baseEnv layerC9 100 (getYForBinR baseEnv layerC9 100 0)| ∧
    |getBinForYR baseEnv layerC9 100 (getYForBinR baseEnv layerC9 100 0) - 0|
      > |getBinForYR baseEnv layerC9 100 (getYForBinR baseEnv layerC9 100 0 + (-1))
          - getBinForYR baseEnv layerC9 100 (getYForBinR baseEnv layerC9 100 0)| := by
  have hq : getEffectiveMinFrequency baseEnv layerC9 = 125 / 8 := by
    norm_num [getEffectiveMinFrequency, modelSampleRate, layerC9, layerC3,
      baseLayer, baseAM, getFFTSize, getFFTOversampling, baseEnv]
  have hqM : getEffectiveMaxFrequency baseEnv layerC9 = 8000 := by
    norm_num [getEffectiveMaxFrequency, modelSampleRate, layerC9, layerC3,
      baseLayer, baseAM, getFFTSize, getFFTOversampling, baseEnv, cppInt]
  have hc1 : (((125 / 8 : ℚ) : ℝ)) = 125 / 8 := by norm_num
  have hc2 : (((8000 : ℚ) : ℝ)) = 8000 := by norm_num
  have hD512 : Real.log ((8000 : ℚ) : ℝ) - Real.log ((125 / 8 : ℚ) : ℝ)
      = Real.log 512 := by
    rw [hc1, hc2, ← Real.log_div (by norm_num) (by norm_num)]
    norm_num
  have hDpos : 0 < Real.log ((8000 : ℚ) : ℝ) - Real.log ((125 / 8 : ℚ) : ℝ) := by
    rw [hD512]
    exact Real.log_pos (by norm_num)
  have hD : Real.log ((8000 : ℚ) : ℝ) - Real.log ((125 / 8 : ℚ) : ℝ) ≠ 0 :=
    ne_of_gt hDpos
  have key : ∀ t : ℝ, getBinForYR baseEnv layerC9 100 (getYForBinR baseEnv layerC9 100 0 + t)
      = Real.exp (-(Real.log ((8000 : ℚ) : ℝ) - Real.log ((125 / 8 : ℚ) : ℝ))
          * t / 100) * (8 / 125) := by
    intro t
    unfold getBinForYR getYForBinR
    simp only [show layerC9.binScale = BinScale.log from rfl, decide_True]
    rw [hq, hqM, zero_mul, zero_div]
    rw [view_log_axis_pixel 100 ((125 / 8 : ℚ) : ℝ) ((8000 : ℚ) : ℝ)
      (by norm_num) hD t]
    rw [mul_div_assoc]
    congr 1
    norm_num [getFFTSize, getFFTOversampling, layerC9, layerC3, baseLayer,
      baseEnv, modelSampleRate, baseAM]
  have h0 : getBinForYR baseEnv layerC9 100 (getYForBinR baseEnv layerC9 100 0)
      = 8 / 125 := by
    have h := key 0
    simpa [Real.exp_zero] using h
  have hb1 := key 1
  have hbm := key (-1)
  have he1pos : 0 < Real.exp (-(Real.log ((8000 : ℚ) : ℝ)
      - Real.log ((125 / 8 : ℚ) : ℝ)) * 1 / 100) := Real.exp_pos _
  have he1lt : Real.exp (-(Real.log ((8000 : ℚ) : ℝ)
      - Real.log ((125 / 8 : ℚ) : ℝ)) * 1 / 100) < 1 := by
    have hx : -(Real.log ((8000 : ℚ) : ℝ) - Real.log ((125 / 8 : ℚ) : ℝ))
        * 1 / 100 < 0 := by nlinarith
    calc Real.exp (-(Real.log ((8000 : ℚ) : ℝ) - Real.log ((125 / 8 : ℚ) : ℝ))
            * 1 / 100)
        < Real.exp 0 := Real.exp_lt_exp.mpr hx
      _ = 1 := Real.exp_zero
  have he2gt : 1 < Real.exp (-(Real.log ((8000 : ℚ) : ℝ)
      - Real.log ((125 / 8 : ℚ) : ℝ)) * (-1) / 100) := by
    have hx : (0 : ℝ) < -(Real.log ((8000 : ℚ) : ℝ)
        - Real.log ((125 / 8 : ℚ) : ℝ)) * (-1) / 100 := by nlinarith
    calc (1 : ℝ) = Real.exp 0 := Real.exp_zero.symm
      _ < Real.exp (-(Real.log ((8000 : ℚ) : ℝ)
            - Real.log ((125 / 8 : ℚ) : ℝ)) * (-1) / 100) :=
        Real.exp_lt_exp.mpr hx
  have he2lt : Real.exp (-(Real.log ((8000 : ℚ) : ℝ)
      - Real.log ((125 / 8 : ℚ) : ℝ)) * (-1) / 100) < 2 := by
    have hlog2 : (0 : ℝ) < Real.log 2 := Real.log_pos (by norm_num)
    have h9 : Real.log ((8000 : ℚ) : ℝ) - Real.log ((125 / 8 : ℚ) : ℝ)
        = 9 * Real.log 2 := by
      rw [hD512, show (512 : ℝ) = 2 ^ 9 by norm_num, Real.log_pow]
      push_cast
      ring
    have hx : -(Real.log ((8000 : ℚ) : ℝ) - Real.log ((125 / 8 : ℚ) : ℝ))
        * (-1) / 100 < Real.log 2 := by
      rw [h9]
      nlinarith
    calc Real.exp (-(Real.log ((8000 : ℚ) : ℝ)
            - Real.log ((125 / 8 : ℚ) : ℝ)) * (-1) / 100)
        < Real.exp (Real.log 2) := Real.exp_lt_exp.mpr hx
      _ = 2 := Real.exp_log (by norm_num)
  refine ⟨rfl, h0, ?_, ?_, ?_⟩
  · rw [h0]; norm_num
  · rw [h0, hb1, sub_zero, abs_of_pos (by norm_num : (0 : ℝ) < 8 / 125),
      abs_of_nonpos (by nlinarith : Real.exp (-(Real.log ((8000 : ℚ) : ℝ)
        - Real.log ((125 / 8 : ℚ) : ℝ)) * 1 / 100) * (8 / 125) - 8 / 125 ≤ 0)]
    nlinarith
  · rw [h0, hbm, sub_zero, abs_of_pos (by norm_num : (0 : ℝ) < 8 / 125),
      abs_of_nonneg (by nlinarith : (0 : ℝ) ≤ Real.exp (-(Real.log ((8000 : ℚ) : ℝ)
        - Real.log ((125 / 8 : ℚ) : ℝ)) * (-1) / 100) * (8 / 125) - 8 / 125)]
    nlinarith
